import Mathlib

/-
Verification of the codegraph dependency-graph builder
(src/workflows/scripts/codegraph/codegraph.py) against its specification.

The Python program is shallowly embedded: each relevant Python function is
translated into an executable Lean definition over lists and strings.
Python dicts (which iterate in insertion order) are modelled by lists with
first-occurrence deduplication; Python sets (whose iteration order is
unspecified and hash-dependent) are modelled by passing an explicit
enumeration order, constrained to be a permutation of the collected keys.
Regex pattern matching is kept abstract: an extractor consumes, per source
line, the list of captured strings that the corresponding regex produced,
and performs exactly the node/edge operations of the source.
-/

set_option maxRecDepth 4000

-- ════════════════════════════════════════════════════════════════════
-- Python string/list primitives
-- ════════════════════════════════════════════════════════════════════

/-- First-occurrence deduplication, accumulator of already-seen keys.
Models iteration over the keys of a Python dict that was filled by
repeated `d[k].append(...)`: each key appears once, in first-insertion
order. -/
def dedupFirstAux (seen : List String) : List String → List String
  | [] => []
  | x :: xs => if x ∈ seen then dedupFirstAux seen xs else x :: dedupFirstAux (x :: seen) xs

/-- First-occurrence deduplication of a list of keys. -/
def dedupFirst (l : List String) : List String :=
  dedupFirstAux [] l

/-- Python `s.split(sep)` for a single-character separator:
splitting the empty string gives `[""]`, and every separator occurrence
starts a new segment. -/
def splitChar (sep : Char) : List Char → List (List Char)
  | [] => [[]]
  | c :: cs =>
    let r := splitChar sep cs
    if c = sep then [] :: r
    else
      match r with
      | [] => [[c]]
      | h :: t => (c :: h) :: t

/-- Python `s.replace(old, new)`: replace every non-overlapping occurrence
of `old`, scanning left to right.  The scan is fuel-indexed (every step
consumes at least one character, so fuel `s.length` is exact); the fuel
keeps the recursion structural. -/
def replaceAllGo (old new : List Char) : Nat → List Char → List Char
  | 0, s => s
  | fuel + 1, s =>
    match s with
    | [] => []
    | c :: cs =>
      if old ≠ [] ∧ old.isPrefixOf (c :: cs) = true then
        new ++ replaceAllGo old new fuel ((c :: cs).drop old.length)
      else
        c :: replaceAllGo old new fuel cs

/-- Python `s.replace(old, new)` on character lists. -/
def replaceAll (old new s : List Char) : List Char :=
  replaceAllGo old new s.length s

/-- Python `s.replace(old, new)` on strings. -/
def pyReplace (s old new : String) : String :=
  String.mk (replaceAll old.data new.data s.data)

/-- Python `sub in s` (substring containment) on character lists. -/
def hasSubList (sub : List Char) : List Char → Bool
  | [] => sub.isEmpty
  | c :: cs => sub.isPrefixOf (c :: cs) || hasSubList sub cs

/-- Python `sub in s` on strings. -/
def pyIn (sub s : String) : Bool :=
  hasSubList sub.data s.data

/-- Python `s.startswith(p)`. -/
def pyStartsWith (s p : String) : Bool :=
  p.data.isPrefixOf s.data

/-- ASCII lowercase map of Python `str.lower()` (the paths and keys the
program manipulates are ASCII). -/
def pyLowerChar (c : Char) : Char :=
  if 'A' ≤ c ∧ c ≤ 'Z' then Char.ofNat (c.toNat + 32) else c

/-- Python `s.lower()` on strings (ASCII range). -/
def pyLower (s : String) : String :=
  String.mk (s.data.map pyLowerChar)

/-- Python `pathlib.Path(name).suffix` of a basename: the part of the name
from the last dot on, empty when the last dot is the first character, the
last character, or absent. -/
def pathSuffix (name : String) : String :=
  let cs := name.data
  match cs.reverse.findIdx? (fun c => c = '.') with
  | none => ""
  | some j =>
    let i := cs.length - 1 - j
    if 0 < i ∧ i < cs.length - 1 then String.mk (cs.drop i) else ""

/-- Model of `fpath.suffix.lower()` as used by discovery and dispatch. -/
def pathSuffixLower (name : String) : String :=
  pyLower (pathSuffix name)

/-- Python `os.path.join(a, b)` for the relative paths the resolver
handles. -/
def pyJoin (a b : String) : String :=
  if a = "" then b else if pyStartsWith b "/" then b else a ++ "/" ++ b

/-- Python `os.path.normpath` component processing for relative paths:
drop empty and `.` components, let `..` cancel a preceding component. -/
def normpathComps (comps : List String) : List String :=
  comps.foldl
    (fun acc p =>
      if p = "" ∨ p = "." then acc
      else if p = ".." then
        if acc ≠ [] ∧ acc.getLast? ≠ some ".." then acc.dropLast else acc ++ [p]
      else acc ++ [p])
    []

/-- Python `os.path.normpath(s)` for relative paths. -/
def pyNormpath (s : String) : String :=
  let comps := normpathComps ((splitChar '/' s.data).map String.mk)
  let r := String.intercalate "/" comps
  if r = "" then "." else r

/-- Python `str(pathlib.Path(p).parent)` for the relative paths the
resolvers handle. -/
def pyParent (p : String) : String :=
  let parts := (splitChar '/' p.data).map String.mk
  if parts.length ≤ 1 then "." else String.intercalate "/" parts.dropLast

/-- Python `s.split(":", 2)[-1]`: the remainder after at most two
colon-splits (used for `edge.target.split(":", 2)[-1]`). -/
def splitColonTail (s : String) : String :=
  match (splitChar ':' s.data).map String.mk with
  | [] => s
  | [x] => x
  | [_, y] => y
  | _ :: _ :: rest => String.intercalate ":" rest

/-- Lookup in a metadata dict modelled as an association list
(Python `metadata.get(key, default)` is `(metaGet m key).getD default`). -/
def metaGet (m : List (String × String)) (k : String) : Option String :=
  (m.find? (fun p => p.1 == k)).map (fun p => p.2)

/-- A graph node (dataclass `Node`). -/
structure Node where
  id : String
  file : String
  name : String
  node_type : String
  language : String
  line : Nat := 0
  metadata : List (String × String) := []
deriving DecidableEq

/-- A directed edge (dataclass `Edge`). -/
structure Edge where
  source : String
  target : String
  edge_type : String
  file : String := ""
  line : Nat := 0
  metadata : List (String × String) := []
deriving DecidableEq

/-- One producer/consumer record inside a bridge
(`{file, line, language, action}`). -/
structure BridgeEntry where
  file : String
  line : Nat
  language : String
  action : String
deriving DecidableEq

/-- A cross-language bridge (dataclass `Bridge`). -/
structure Bridge where
  bridge_type : String
  key : String
  producers : List BridgeEntry := []
  consumers : List BridgeEntry := []
deriving DecidableEq

/-- The graph container (`class CodeGraph`).  `nodes` models the
insertion-ordered Python dict keyed by `Node.id` (uniqueness is maintained
by `add_node`); the adjacency indexes are recovered from `edges` by
filtering, which reproduces the append-order lists of the defaultdicts. -/
structure CodeGraph where
  nodes : List Node := []
  edges : List Edge := []
  bridges : List Bridge := []
deriving DecidableEq

/-- The empty graph (`CodeGraph.__init__`). -/
def emptyCG : CodeGraph := {}

/-- Model of `self.nodes.get(node_id)` (dict lookup by id). -/
def CodeGraph.get_node (g : CodeGraph) (i : String) : Option Node :=
  g.nodes.find? (fun n => n.id == i)

/-- Model of `add_node`: insert only when the id is absent. -/
def CodeGraph.add_node (g : CodeGraph) (n : Node) : CodeGraph :=
  if (g.get_node n.id).isSome then g else { g with nodes := g.nodes ++ [n] }

/-- Model of `add_edge`: append unconditionally. -/
def CodeGraph.add_edge (g : CodeGraph) (e : Edge) : CodeGraph :=
  { g with edges := g.edges ++ [e] }

/-- Model of `add_bridge`: append. -/
def CodeGraph.add_bridge (g : CodeGraph) (b : Bridge) : CodeGraph :=
  { g with bridges := g.bridges ++ [b] }

/-- Model of `self._adjacency.get(i, [])`: outgoing edges of `i` in insertion
order. -/
def CodeGraph.forward_edges (g : CodeGraph) (i : String) : List Edge :=
  g.edges.filter (fun e => e.source == i)

/-- Model of `self._reverse_adj.get(i, [])`: incoming edges of `i` in insertion
order. -/
def CodeGraph.reverse_edges (g : CodeGraph) (i : String) : List Edge :=
  g.edges.filter (fun e => e.target == i)

-- ════════════════════════════════════════════════════════════════════
-- Import resolution (resolve_js_import / resolve_python_import /
-- resolve_cpp_include)
-- ════════════════════════════════════════════════════════════════════

/-- ASCII uppercase map of Python `str.upper()`. -/
def pyUpperChar (c : Char) : Char :=
  if 'a' ≤ c ∧ c ≤ 'z' then Char.ofNat (c.toNat - 32) else c

/-- Python `s.upper()` on strings (ASCII range). -/
def pyUpper (s : String) : String :=
  String.mk (s.data.map pyUpperChar)

/-- Model of `resolve_js_import`: external packages become `__pkg__/<name>`
(scoped packages keep two segments); relative paths are joined to the
importing file's directory and normalized. -/
def resolve_js_import (source_file import_path : String) : String :=
  if ¬ pyStartsWith import_path "." then
    let parts := (splitChar '/' import_path.data).map String.mk
    let pkg :=
      if pyStartsWith import_path "@" then String.intercalate "/" (parts.take 2)
      else parts.headD ""
    "__pkg__/" ++ pkg
  else
    pyReplace (pyNormpath (pyJoin (pyParent source_file) import_path)) "\\" "/"

/-- Iterated `Path(...).parent` (used for relative-import levels). -/
def iterParent : Nat → String → String
  | 0, s => s
  | n + 1, s => iterParent n (pyParent s)

/-- Model of `resolve_python_import`: leading dots walk up `levels - 1` directories
from the importing file's directory; dotted modules become `/`-joined
paths. -/
def resolve_python_import (source_file module : String) : String :=
  if pyStartsWith module "." then
    let source_dir := pyParent source_file
    let stripped := String.mk (module.data.dropWhile (fun c => c = '.'))
    let parts := (splitChar '.' stripped.data).map String.mk
    let levels := (module.data.takeWhile (fun c => c = '.')).length
    let base := iterParent (levels - 1) source_dir
    pyReplace (pyNormpath (parts.foldl pyJoin base)) "\\" "/"
  else
    String.intercalate "/" ((splitChar '.' module.data).map String.mk)

/-- Model of `resolve_cpp_include`: normalize relative to the including file's
directory. -/
def resolve_cpp_include (source_file header : String) : String :=
  pyReplace (pyNormpath (pyJoin (pyParent source_file) header)) "\\" "/"

-- ════════════════════════════════════════════════════════════════════
-- Language extractors.  Regex matching is abstracted: a line is
-- represented by the capture lists its regexes produced; the extractor
-- then performs exactly the node/edge operations of the source, in
-- source order.
-- ════════════════════════════════════════════════════════════════════

/-- Captures of one JS/TS source line, in the order the patterns run. -/
structure JsLine where
  imports : List String := []
  exports : List String := []
  routes : List (String × String) := []
  api_calls : List (String × String) := []
  ws_emits : List String := []
  ws_listens : List String := []
  mqtt_pubs : List String := []
  mqtt_subs : List String := []
  env_uses : List String := []
deriving DecidableEq

/-- Captures of one Python source line. -/
structure PyLine where
  imports : List String := []
  funcs : List String := []
  classes : List String := []
  mqtt_pubs : List String := []
  mqtt_subs : List String := []
  mqtt_callbacks : List String := []
  serial_reads : Bool := false
  serial_writes : Bool := false
  http_calls : List (String × String) := []
  routes : List String := []
  env_uses : List String := []
deriving DecidableEq

/-- Captures of one C/C++/Arduino source line. -/
structure CppLine where
  include_match : Option (String × Bool) := none
  funcs : List String := []
  mqtt_pubs : List String := []
  mqtt_subs : List String := []
  serial_write : Bool := false
  serial_read : Bool := false
  http_begins : List String := []
deriving DecidableEq

/-- Parsed content of a `package.json` (None models a JSON parse
failure). -/
structure PkgJson where
  deps : List String := []
  devDeps : List String := []
  scripts : List (String × String) := []
deriving DecidableEq

/-- One input file after reading: relative path, basename, emptiness of
the content, and the per-line regex captures under each language's
grammar (only the view selected by the dispatch is ever consulted). -/
structure SourceFile where
  relp : String
  name : String
  empty : Bool := false
  js : List (Nat × JsLine) := []
  py : List (Nat × PyLine) := []
  cpp : List (Nat × CppLine) := []
  envLines : List (Nat × String) := []
  pkg : Option PkgJson := none

/-- One JS/TS line of `parse_javascript` (operations in source order). -/
def processJsLine (relp lang fid : String) (ln : Nat) (m : JsLine) (g : CodeGraph) : CodeGraph :=
  let g := m.imports.foldl (fun g raw =>
    g.add_edge { source := fid, target := "file:" ++ resolve_js_import relp raw,
                 edge_type := "imports", file := relp, line := ln,
                 metadata := [("raw", raw)] }) g
  let g := m.exports.foldl (fun g nm =>
    if nm = "" then g
    else
      (g.add_node { id := "export:" ++ relp ++ ":" ++ nm, file := relp, name := nm,
                    node_type := "function", language := lang, line := ln }).add_edge
        { source := fid, target := "export:" ++ relp ++ ":" ++ nm,
          edge_type := "exports", file := relp, line := ln }) g
  let g := m.routes.foldl (fun g r =>
    let method := pyUpper r.1
    let eid := "http:" ++ method ++ ":" ++ r.2
    (g.add_node { id := eid, file := relp, name := method ++ " " ++ r.2,
                  node_type := "endpoint", language := lang, line := ln,
                  metadata := [("method", method), ("path", r.2)] }).add_edge
      { source := fid, target := eid, edge_type := "defines", file := relp, line := ln }) g
  let g := m.api_calls.foldl (fun g r =>
    let method := pyUpper r.1
    g.add_edge { source := fid, target := "http:" ++ method ++ ":" ++ r.2,
                 edge_type := "fetches", file := relp, line := ln,
                 metadata := [("method", method), ("path", r.2)] }) g
  let g := m.ws_emits.foldl (fun g ev =>
    (g.add_node { id := "ws:" ++ ev, file := relp, name := "ws:" ++ ev,
                  node_type := "event", language := lang, line := ln }).add_edge
      { source := fid, target := "ws:" ++ ev, edge_type := "emits",
        file := relp, line := ln }) g
  let g := m.ws_listens.foldl (fun g ev =>
    (g.add_node { id := "ws:" ++ ev, file := relp, name := "ws:" ++ ev,
                  node_type := "event", language := lang }).add_edge
      { source := "ws:" ++ ev, target := fid, edge_type := "subscribes",
        file := relp, line := ln }) g
  let g := m.mqtt_pubs.foldl (fun g t =>
    (g.add_node { id := "mqtt:" ++ t, file := relp, name := "mqtt:" ++ t,
                  node_type := "topic", language := lang, line := ln }).add_edge
      { source := fid, target := "mqtt:" ++ t, edge_type := "publishes",
        file := relp, line := ln }) g
  let g := m.mqtt_subs.foldl (fun g t =>
    (g.add_node { id := "mqtt:" ++ t, file := relp, name := "mqtt:" ++ t,
                  node_type := "topic", language := lang }).add_edge
      { source := "mqtt:" ++ t, target := fid, edge_type := "subscribes",
        file := relp, line := ln }) g
  let g := m.env_uses.foldl (fun g v =>
    (g.add_node { id := "env:" ++ v, file := relp, name := v,
                  node_type := "variable", language := "config" }).add_edge
      { source := fid, target := "env:" ++ v, edge_type := "env_uses",
        file := relp, line := ln }) g
  g

/-- Model of `parse_javascript`. -/
def parse_javascript (f : SourceFile) (g : CodeGraph) : CodeGraph :=
  let lang := if pathSuffix f.name = ".ts" ∨ pathSuffix f.name = ".tsx" then "ts" else "js"
  let fid := "file:" ++ f.relp
  let g := g.add_node { id := fid, file := f.relp, name := f.name,
                        node_type := "file", language := lang }
  f.js.foldl (fun g lm => processJsLine f.relp lang fid lm.1 lm.2 g) g

/-- One Python line of `parse_python` (operations in source order). -/
def processPyLine (relp fid : String) (ln : Nat) (m : PyLine) (g : CodeGraph) : CodeGraph :=
  let g := m.imports.foldl (fun g module =>
    g.add_edge { source := fid, target := "file:" ++ resolve_python_import relp module,
                 edge_type := "imports", file := relp, line := ln,
                 metadata := [("module", module)] }) g
  let g := m.funcs.foldl (fun g nm =>
    (g.add_node { id := "func:" ++ relp ++ ":" ++ nm, file := relp, name := nm,
                  node_type := "function", language := "python", line := ln }).add_edge
      { source := fid, target := "func:" ++ relp ++ ":" ++ nm,
        edge_type := "defines", file := relp, line := ln }) g
  let g := m.classes.foldl (fun g nm =>
    (g.add_node { id := "class:" ++ relp ++ ":" ++ nm, file := relp, name := nm,
                  node_type := "class", language := "python", line := ln }).add_edge
      { source := fid, target := "class:" ++ relp ++ ":" ++ nm,
        edge_type := "defines", file := relp, line := ln }) g
  let g := m.mqtt_pubs.foldl (fun g t =>
    (g.add_node { id := "mqtt:" ++ t, file := relp, name := "mqtt:" ++ t,
                  node_type := "topic", language := "python", line := ln }).add_edge
      { source := fid, target := "mqtt:" ++ t, edge_type := "publishes",
        file := relp, line := ln }) g
  let g := m.mqtt_subs.foldl (fun g t =>
    (g.add_node { id := "mqtt:" ++ t, file := relp, name := "mqtt:" ++ t,
                  node_type := "topic", language := "python" }).add_edge
      { source := "mqtt:" ++ t, target := fid, edge_type := "subscribes",
        file := relp, line := ln }) g
  let g := m.mqtt_callbacks.foldl (fun g t =>
    (g.add_node { id := "mqtt:" ++ t, file := relp, name := "mqtt:" ++ t,
                  node_type := "topic", language := "python" }).add_edge
      { source := "mqtt:" ++ t, target := fid, edge_type := "subscribes",
        file := relp, line := ln }) g
  let g := if m.serial_reads then
      (g.add_node { id := "serial:connection", file := relp, name := "serial",
                    node_type := "event", language := "python" }).add_edge
        { source := "serial:connection", target := fid, edge_type := "serial_read",
          file := relp, line := ln }
    else g
  let g := if m.serial_writes then
      (g.add_node { id := "serial:connection", file := relp, name := "serial",
                    node_type := "event", language := "python" }).add_edge
        { source := fid, target := "serial:connection", edge_type := "serial_write",
          file := relp, line := ln }
    else g
  let g := m.http_calls.foldl (fun g r =>
    g.add_edge { source := fid, target := "http:" ++ pyUpper r.1 ++ ":" ++ r.2,
                 edge_type := "fetches", file := relp, line := ln }) g
  let g := m.routes.foldl (fun g p =>
    (g.add_node { id := "http:GET:" ++ p, file := relp, name := "GET " ++ p,
                  node_type := "endpoint", language := "python", line := ln }).add_edge
      { source := fid, target := "http:GET:" ++ p, edge_type := "defines",
        file := relp, line := ln }) g
  let g := m.env_uses.foldl (fun g v =>
    (g.add_node { id := "env:" ++ v, file := relp, name := v,
                  node_type := "variable", language := "config" }).add_edge
      { source := fid, target := "env:" ++ v, edge_type := "env_uses",
        file := relp, line := ln }) g
  g

/-- Model of `parse_python`. -/
def parse_python (f : SourceFile) (g : CodeGraph) : CodeGraph :=
  let fid := "file:" ++ f.relp
  let g := g.add_node { id := fid, file := f.relp, name := f.name,
                        node_type := "file", language := "python" }
  f.py.foldl (fun g lm => processPyLine f.relp fid lm.1 lm.2 g) g

/-- One C/C++/Arduino line of `parse_cpp_arduino` (operations in source
order). -/
def processCppLine (relp lang fid : String) (ln : Nat) (m : CppLine) (g : CodeGraph) : CodeGraph :=
  let g := match m.include_match with
    | none => g
    | some (hdr, isLocal) =>
      if isLocal then
        g.add_edge { source := fid, target := "file:" ++ resolve_cpp_include relp hdr,
                     edge_type := "includes", file := relp, line := ln }
      else
        (g.add_node { id := "lib:" ++ hdr, file := "", name := hdr,
                      node_type := "file", language := "cpp" }).add_edge
          { source := fid, target := "lib:" ++ hdr, edge_type := "includes",
            file := relp, line := ln }
  let g := m.funcs.foldl (fun g nm =>
    if nm = "if" ∨ nm = "while" ∨ nm = "for" ∨ nm = "switch" ∨ nm = "return" then g
    else
      (g.add_node { id := "func:" ++ relp ++ ":" ++ nm, file := relp, name := nm,
                    node_type := "function", language := lang, line := ln }).add_edge
        { source := fid, target := "func:" ++ relp ++ ":" ++ nm,
          edge_type := "defines", file := relp, line := ln }) g
  let g := m.mqtt_pubs.foldl (fun g t =>
    (g.add_node { id := "mqtt:" ++ t, file := relp, name := "mqtt:" ++ t,
                  node_type := "topic", language := lang, line := ln }).add_edge
      { source := fid, target := "mqtt:" ++ t, edge_type := "publishes",
        file := relp, line := ln }) g
  let g := m.mqtt_subs.foldl (fun g t =>
    (g.add_node { id := "mqtt:" ++ t, file := relp, name := "mqtt:" ++ t,
                  node_type := "topic", language := lang }).add_edge
      { source := "mqtt:" ++ t, target := fid, edge_type := "subscribes",
        file := relp, line := ln }) g
  let g := if m.serial_write then
      (g.add_node { id := "serial:connection", file := relp, name := "serial",
                    node_type := "event", language := lang }).add_edge
        { source := fid, target := "serial:connection", edge_type := "serial_write",
          file := relp, line := ln }
    else g
  let g := if m.serial_read then
      (g.add_node { id := "serial:connection", file := relp, name := "serial",
                    node_type := "event", language := lang }).add_edge
        { source := "serial:connection", target := fid, edge_type := "serial_read",
          file := relp, line := ln }
    else g
  let g := m.http_begins.foldl (fun g url =>
    g.add_edge { source := fid, target := "http:GET:" ++ url,
                 edge_type := "fetches", file := relp, line := ln }) g
  g

/-- Model of `parse_cpp_arduino`. -/
def parse_cpp_arduino (f : SourceFile) (g : CodeGraph) : CodeGraph :=
  let lang := if pathSuffix f.name = ".ino" then "arduino" else "cpp"
  let fid := "file:" ++ f.relp
  let g := g.add_node { id := fid, file := f.relp, name := f.name,
                        node_type := "file", language := lang }
  f.cpp.foldl (fun g lm => processCppLine f.relp lang fid lm.1 lm.2 g) g

/-- Model of `parse_env_file`. -/
def parse_env_file (f : SourceFile) (g : CodeGraph) : CodeGraph :=
  let fid := "file:" ++ f.relp
  let g := g.add_node { id := fid, file := f.relp, name := f.name,
                        node_type := "file", language := "config" }
  f.envLines.foldl (fun g lm =>
    (g.add_node { id := "env:" ++ lm.2, file := f.relp, name := lm.2,
                  node_type := "variable", language := "config", line := lm.1 }).add_edge
      { source := fid, target := "env:" ++ lm.2, edge_type := "env_defines",
        file := f.relp, line := lm.1 }) g

/-- Model of `parse_config_files` (only `package.json` carries data; a JSON parse
failure contributes nothing beyond the file node). -/
def parse_config_files (f : SourceFile) (g : CodeGraph) : CodeGraph :=
  let fid := "file:" ++ f.relp
  let g := g.add_node { id := fid, file := f.relp, name := f.name,
                        node_type := "file", language := "config" }
  match f.pkg with
  | none => g
  | some p =>
    let g := p.deps.foldl (fun g d =>
      (g.add_node { id := "pkg:" ++ d, file := "", name := d,
                    node_type := "file", language := "config" }).add_edge
        { source := fid, target := "pkg:" ++ d, edge_type := "imports",
          file := f.relp, metadata := [("type", "dependencies")] }) g
    let g := p.devDeps.foldl (fun g d =>
      (g.add_node { id := "pkg:" ++ d, file := "", name := d,
                    node_type := "file", language := "config" }).add_edge
        { source := fid, target := "pkg:" ++ d, edge_type := "imports",
          file := f.relp, metadata := [("type", "devDependencies")] }) g
    p.scripts.foldl (fun g s =>
      g.add_node { id := "script:" ++ f.relp ++ ":" ++ s.1, file := f.relp,
                   name := "npm:" ++ s.1, node_type := "function",
                   language := "config", metadata := [("command", s.2)] }) g

/-- The per-file dispatch of `build_graph` (`if not content: continue`,
then branch on basename / lowercased suffix). -/
def processFile (g : CodeGraph) (f : SourceFile) : CodeGraph :=
  if f.empty then g
  else
    let ext := pathSuffixLower f.name
    if pyStartsWith f.name ".env" then parse_env_file f g
    else if ext = ".js" ∨ ext = ".jsx" ∨ ext = ".mjs" ∨ ext = ".cjs" ∨ ext = ".ts" ∨ ext = ".tsx" then
      parse_javascript f g
    else if ext = ".py" then parse_python f g
    else if ext = ".cpp" ∨ ext = ".c" ∨ ext = ".h" ∨ ext = ".hpp" ∨ ext = ".ino" then
      parse_cpp_arduino f g
    else if f.name = "package.json" then parse_config_files f g
    else g

/-- The extraction phase of `build_graph`: fold all discovered files over
the empty graph (files are assumed given in the sorted discovery
order). -/
def build_graph_core (fs : List SourceFile) : CodeGraph :=
  fs.foldl processFile emptyCG

/-- The acceptance predicate of `discover_files`: basename starts with
`.env`, or the lowercased suffix is a key of LANGUAGE_MAP. -/
def acceptsName (name : String) : Bool :=
  pyStartsWith name ".env" ||
    [".js", ".jsx", ".mjs", ".cjs", ".ts", ".tsx", ".py", ".cpp", ".c", ".h",
     ".hpp", ".ino", ".json", ".yaml", ".yml", ".toml", ".ini", ".env"].contains
      (pathSuffixLower name)

-- ════════════════════════════════════════════════════════════════════
-- MQTT wildcard matching and HTTP path normalization
-- ════════════════════════════════════════════════════════════════════

/-- The loop of `mqtt_topic_matches`: walk pattern segments against topic
segments; `#` succeeds immediately, a missing topic segment fails, `+`
consumes one segment, otherwise segments must be equal; at the end the
original lists must have had equal length (equivalently, both are now
exhausted). -/
def mqttMatchSegs : List (List Char) → List (List Char) → Bool
  | [], ts => ts.isEmpty
  | p :: ps, ts =>
    if p = ['#'] then true
    else
      match ts with
      | [] => false
      | t :: ts2 =>
        if p = ['+'] then mqttMatchSegs ps ts2
        else if p = t then mqttMatchSegs ps ts2
        else false

/-- Model of `mqtt_topic_matches` (including the initial equality shortcut). -/
def mqtt_topic_matches (pattern topic : String) : Bool :=
  pattern == topic || mqttMatchSegs (splitChar '/' pattern.data) (splitChar '/' topic.data)

/-- Python `\w` on the ASCII range. -/
def isWordChar (c : Char) : Bool :=
  c.isAlpha || c.isDigit || c = '_'

/-- Model of `re.sub(r":(\w+)", "{param}", path)`, fuel-indexed scan (every step
consumes at least one character, so fuel `s.length` is enough): a colon
followed by a non-empty word-character run becomes the literal text
`{param}`. -/
def subColonGo : Nat → List Char → List Char
  | 0, s => s
  | fuel + 1, s =>
    match s with
    | [] => []
    | c :: cs =>
      if c = ':' then
        if (cs.takeWhile isWordChar) ≠ [] then
          '{' :: 'p' :: 'a' :: 'r' :: 'a' :: 'm' :: '}' :: subColonGo fuel (cs.dropWhile isWordChar)
        else c :: subColonGo fuel cs
      else c :: subColonGo fuel cs

/-- Model of `re.sub(r":(\w+)", "{param}", path)`. -/
def subColonParams (s : List Char) : List Char :=
  subColonGo s.length s

/-- Model of `re.sub(r"\$\{[^}]+\}", "{param}", path)`, fuel-indexed scan: a `$`
followed by `{`, at least one non-`}` character and a closing `}`
becomes the literal text `{param}`. -/
def subDollarGo : Nat → List Char → List Char
  | 0, s => s
  | fuel + 1, s =>
    match s with
    | [] => []
    | c :: cs =>
      if c = '$' ∧ cs.head? = some '{' then
        if ((cs.drop 1).takeWhile (fun x => x ≠ '}')) ≠ [] ∧
            ((cs.drop 1).dropWhile (fun x => x ≠ '}')) ≠ [] then
          '{' :: 'p' :: 'a' :: 'r' :: 'a' :: 'm' :: '}' ::
            subDollarGo fuel (((cs.drop 1).dropWhile (fun x => x ≠ '}')).drop 1)
        else c :: subDollarGo fuel cs
      else c :: subDollarGo fuel cs

/-- Model of `re.sub(r"\$\{[^}]+\}", "{param}", path)`. -/
def subDollarBrace (s : List Char) : List Char :=
  subDollarGo s.length s

/-- Model of `re.sub(r"\{[^}]+\}", "{param}", path)`, fuel-indexed scan. -/
def subBraceGo : Nat → List Char → List Char
  | 0, s => s
  | fuel + 1, s =>
    match s with
    | [] => []
    | c :: cs =>
      if c = '{' then
        if (cs.takeWhile (fun x => x ≠ '}')) ≠ [] ∧ (cs.dropWhile (fun x => x ≠ '}')) ≠ [] then
          '{' :: 'p' :: 'a' :: 'r' :: 'a' :: 'm' :: '}' ::
            subBraceGo fuel ((cs.dropWhile (fun x => x ≠ '}')).drop 1)
        else c :: subBraceGo fuel cs
      else c :: subBraceGo fuel cs

/-- Model of `re.sub(r"\{[^}]+\}", "{param}", path)`. -/
def subBraceParams (s : List Char) : List Char :=
  subBraceGo s.length s

/-- Python `s.rstrip("/")`. -/
def rstripSlash (cs : List Char) : List Char :=
  (cs.reverse.dropWhile (fun c => c = '/')).reverse

/-- Model of `normalize_http_path`: the three substitutions, then strip trailing
slashes, then lowercase. -/
def normalize_http_path (path : String) : String :=
  pyLower (String.mk (rstripSlash (subBraceParams (subDollarBrace (subColonParams path.data)))))

-- ════════════════════════════════════════════════════════════════════
-- Bridge detection (detect_bridges)
-- ════════════════════════════════════════════════════════════════════

/-- Model of `graph.nodes.get(f"file:{edge.file}").language`, defaulting to
`"unknown"`. -/
def langOfFile (g : CodeGraph) (file : String) : String :=
  match g.get_node ("file:" ++ file) with
  | some n => n.language
  | none => "unknown"

/-- Model of `edge.target.replace("mqtt:", "")`. -/
def mqttTopicOf (e : Edge) : String :=
  pyReplace e.target "mqtt:" ""

/-- Model of `edge.source.replace("mqtt:", "")`. -/
def mqttSubTopicOf (e : Edge) : String :=
  pyReplace e.source "mqtt:" ""

/-- A `subscribes` edge whose source node exists and is a topic node. -/
def isTopicSubscribe (g : CodeGraph) (e : Edge) : Bool :=
  e.edge_type == "subscribes" &&
    (match g.get_node e.source with
     | some n => n.node_type == "topic"
     | none => false)

/-- The consumer record of an MQTT `subscribes` edge. -/
def mqttConsEntry (g : CodeGraph) (e : Edge) : BridgeEntry :=
  match g.get_node e.target with
  | some n => { file := n.file, line := e.line, language := n.language, action := "subscribe" }
  | none => { file := e.target, line := e.line, language := "unknown", action := "subscribe" }

/-- Model of `mqtt_producers[t]`: producer records in edge order. -/
def mqtt_producers (g : CodeGraph) (t : String) : List BridgeEntry :=
  g.edges.filterMap (fun e =>
    if e.edge_type = "publishes" ∧ mqttTopicOf e = t then
      some { file := e.file, line := e.line, language := langOfFile g e.file,
             action := "publish" }
    else none)

/-- Model of `mqtt_consumers[t]`: consumer records in edge order. -/
def mqtt_consumers (g : CodeGraph) (t : String) : List BridgeEntry :=
  g.edges.filterMap (fun e =>
    if isTopicSubscribe g e = true ∧ mqttSubTopicOf e = t then some (mqttConsEntry g e)
    else none)

/-- Topics of `publishes` edges, in edge order (with repetition). -/
def mqttPubTopics (g : CodeGraph) : List String :=
  g.edges.filterMap (fun e =>
    if e.edge_type = "publishes" then some (mqttTopicOf e) else none)

/-- Topics of topic-node `subscribes` edges, in edge order. -/
def mqttSubTopics (g : CodeGraph) : List String :=
  g.edges.filterMap (fun e =>
    if isTopicSubscribe g e = true then some (mqttSubTopicOf e) else none)

/-- The keys of the `mqtt_consumers` dict in insertion order (the inner
wildcard loop iterates this dict, which is deterministic). -/
def mqttConsKeys (g : CodeGraph) : List String :=
  dedupFirst (mqttSubTopics g)

/-- The member set of `all_topics` as a deduplicated list. -/
def mqttKeys (g : CodeGraph) : List String :=
  dedupFirst (mqttPubTopics g ++ mqttSubTopics g)

/-- Model of `cons` for a topic: its own consumers plus, for every other
subscribed pattern that wildcard-matches the topic, that pattern's
consumers (in dict order). -/
def mqttConsFor (g : CodeGraph) (t : String) : List BridgeEntry :=
  (mqttConsKeys g).foldl
    (fun acc s => if s ≠ t ∧ mqtt_topic_matches s t = true then acc ++ mqtt_consumers g s else acc)
    (mqtt_consumers g t)

/-- Model of `len({...})` over a list of strings. -/
def distinctCount (l : List String) : Nat :=
  (dedupFirst l).length

/-- The mqtt loop body for one topic: emit a bridge iff there is a
producer or consumer and the combined records span more than one file or
more than one language. -/
def mqttBridgeFor (g : CodeGraph) (t : String) : Option Bridge :=
  if (mqtt_producers g t ≠ [] ∨ mqttConsFor g t ≠ []) ∧
      (1 < distinctCount ((mqtt_producers g t ++ mqttConsFor g t).map (fun p => p.file)) ∨
       1 < distinctCount ((mqtt_producers g t ++ mqttConsFor g t).map (fun p => p.language))) then
    some { bridge_type := "mqtt", key := t, producers := mqtt_producers g t,
           consumers := mqttConsFor g t }
  else none

/-- The MQTT stage of `detect_bridges`, iterating `all_topics` in the
given set-enumeration order. -/
def mqttBridges (g : CodeGraph) (ord : List String) : List Bridge :=
  ord.filterMap (mqttBridgeFor g)

/-- The normalized definition key of a `defines` edge onto an endpoint
node (`target.metadata.get("path", edge.target)` normalized). -/
def httpDefKeyOf (g : CodeGraph) (e : Edge) : Option String :=
  if e.edge_type = "defines" then
    match g.get_node e.target with
    | some t =>
      if t.node_type = "endpoint" then
        some (normalize_http_path ((metaGet t.metadata "path").getD e.target))
      else none
    | none => none
  else none

/-- Model of `http_definers[p]`. -/
def http_definers (g : CodeGraph) (p : String) : List BridgeEntry :=
  g.edges.filterMap (fun e =>
    if e.edge_type = "defines" then
      match g.get_node e.target with
      | some t =>
        if t.node_type = "endpoint" ∧
            normalize_http_path ((metaGet t.metadata "path").getD e.target) = p then
          some { file := e.file, line := e.line, language := langOfFile g e.file,
                 action := "defines " ++ t.name }
        else none
      | none => none
    else none)

/-- The path of a `fetches` edge:
`edge.metadata.get("path", edge.target.split(":", 2)[-1] if ":" in edge.target else edge.target)`. -/
def httpCallPath (e : Edge) : String :=
  (metaGet e.metadata "path").getD
    (if pyIn ":" e.target then splitColonTail e.target else e.target)

/-- Model of `http_callers[p]`. -/
def http_callers (g : CodeGraph) (p : String) : List BridgeEntry :=
  g.edges.filterMap (fun e =>
    if e.edge_type = "fetches" ∧ normalize_http_path (httpCallPath e) = p then
      some { file := e.file, line := e.line, language := langOfFile g e.file,
             action := "calls " ++ httpCallPath e }
    else none)

/-- Normalized keys of all definition edges, in edge order. -/
def httpDefKeys (g : CodeGraph) : List String :=
  g.edges.filterMap (fun e => httpDefKeyOf g e)

/-- Normalized keys of all call edges, in edge order. -/
def httpCallKeys (g : CodeGraph) : List String :=
  g.edges.filterMap (fun e =>
    if e.edge_type = "fetches" then some (normalize_http_path (httpCallPath e)) else none)

/-- The member set of the http key set as a deduplicated list. -/
def httpKeys (g : CodeGraph) : List String :=
  dedupFirst (httpDefKeys g ++ httpCallKeys g)

/-- The http loop body for one normalized path: matched bridge when both
sides exist, `UNMATCHED:`-prefixed consumer-only bridge when only calls
exist. -/
def httpBridgeFor (g : CodeGraph) (p : String) : Option Bridge :=
  if http_definers g p ≠ [] ∧ http_callers g p ≠ [] then
    some { bridge_type := "http", key := p, producers := http_definers g p,
           consumers := http_callers g p }
  else if http_callers g p ≠ [] ∧ http_definers g p = [] then
    some { bridge_type := "http", key := "UNMATCHED:" ++ p, producers := [],
           consumers := http_callers g p }
  else none

/-- The HTTP stage of `detect_bridges`. -/
def httpBridges (g : CodeGraph) (ord : List String) : List Bridge :=
  ord.filterMap (httpBridgeFor g)

/-- A `subscribes` edge whose source is an existing `ws:` event node. -/
def isWsSubscribe (g : CodeGraph) (e : Edge) : Bool :=
  e.edge_type == "subscribes" &&
    (match g.get_node e.source with
     | some n => n.node_type == "event" && pyStartsWith n.id "ws:"
     | none => false)

/-- Model of `ws_emitters[ev]`. -/
def ws_emitters (g : CodeGraph) (ev : String) : List BridgeEntry :=
  g.edges.filterMap (fun e =>
    if e.edge_type = "emits" ∧ pyReplace e.target "ws:" "" = ev then
      some { file := e.file, line := e.line, language := langOfFile g e.file,
             action := "emits" }
    else none)

/-- Model of `ws_listeners[ev]`. -/
def ws_listeners (g : CodeGraph) (ev : String) : List BridgeEntry :=
  g.edges.filterMap (fun e =>
    if isWsSubscribe g e = true ∧ pyReplace e.source "ws:" "" = ev then
      some (match g.get_node e.target with
        | some n => { file := n.file, line := e.line, language := n.language,
                      action := "listens" }
        | none => { file := e.target, line := e.line, language := "unknown",
                    action := "listens" })
    else none)

/-- The member set of the websocket key set as a deduplicated list. -/
def wsKeys (g : CodeGraph) : List String :=
  dedupFirst
    (g.edges.filterMap (fun e =>
        if e.edge_type = "emits" then some (pyReplace e.target "ws:" "") else none) ++
     g.edges.filterMap (fun e =>
        if isWsSubscribe g e = true then some (pyReplace e.source "ws:" "") else none))

/-- The websocket loop body for one event. -/
def wsBridgeFor (g : CodeGraph) (ev : String) : Option Bridge :=
  if 1 < distinctCount ((ws_emitters g ev ++ ws_listeners g ev).map (fun p => p.file)) then
    some { bridge_type := "websocket", key := ev, producers := ws_emitters g ev,
           consumers := ws_listeners g ev }
  else none

/-- The WebSocket stage of `detect_bridges`. -/
def wsBridges (g : CodeGraph) (ord : List String) : List Bridge :=
  ord.filterMap (wsBridgeFor g)

/-- All `serial_write` records. -/
def serial_writers (g : CodeGraph) : List BridgeEntry :=
  g.edges.filterMap (fun e =>
    if e.edge_type = "serial_write" then
      some { file := e.file, line := e.line, language := langOfFile g e.file,
             action := "write" }
    else none)

/-- All `serial_read` records. -/
def serial_readers (g : CodeGraph) : List BridgeEntry :=
  g.edges.filterMap (fun e =>
    if e.edge_type = "serial_read" then
      some { file := e.file, line := e.line, language := langOfFile g e.file,
             action := "read" }
    else none)

/-- The serial stage of `detect_bridges`. -/
def serialBridges (g : CodeGraph) : List Bridge :=
  if serial_writers g ≠ [] ∧ serial_readers g ≠ [] then
    [{ bridge_type := "serial", key := "serial",
       producers := serial_writers g, consumers := serial_readers g }]
  else []

/-- Model of `edge.target.replace("env:", "")`. -/
def envVarOf (e : Edge) : String :=
  pyReplace e.target "env:" ""

/-- Model of `env_definers[v]` (language is the literal `"config"`). -/
def env_definers (g : CodeGraph) (v : String) : List BridgeEntry :=
  g.edges.filterMap (fun e =>
    if e.edge_type = "env_defines" ∧ envVarOf e = v then
      some { file := e.file, line := e.line, language := "config", action := "defines" }
    else none)

/-- Model of `env_users[v]`. -/
def env_users (g : CodeGraph) (v : String) : List BridgeEntry :=
  g.edges.filterMap (fun e =>
    if e.edge_type = "env_uses" ∧ envVarOf e = v then
      some { file := e.file, line := e.line, language := langOfFile g e.file,
             action := "uses" }
    else none)

/-- The member set of the env key set as a deduplicated list. -/
def envKeys (g : CodeGraph) : List String :=
  dedupFirst
    (g.edges.filterMap (fun e =>
        if e.edge_type = "env_defines" then some (envVarOf e) else none) ++
     g.edges.filterMap (fun e =>
        if e.edge_type = "env_uses" then some (envVarOf e) else none))

/-- The env loop body for one variable: `UNDEFINED:` bridge when it has
users but no definer, otherwise a bridge iff the combined file set has
more than one file. -/
def envBridgeFor (g : CodeGraph) (v : String) : Option Bridge :=
  if env_users g v ≠ [] ∧ env_definers g v = [] then
    some { bridge_type := "env", key := "UNDEFINED:" ++ v, producers := [],
           consumers := env_users g v }
  else if env_definers g v ≠ [] ∧ env_users g v ≠ [] ∧
      1 < distinctCount ((env_definers g v ++ env_users g v).map (fun p => p.file)) then
    some { bridge_type := "env", key := v, producers := env_definers g v,
           consumers := env_users g v }
  else none

/-- The env stage of `detect_bridges`. -/
def envBridges (g : CodeGraph) (ord : List String) : List Bridge :=
  ord.filterMap (envBridgeFor g)

/-- Model of `detect_bridges`: append the five stages' bridges (mqtt, http,
websocket, serial, env), each set-keyed stage iterating its keys in the
given enumeration order. -/
def detect_bridges (g : CodeGraph) (mo ho wo eo : List String) : CodeGraph :=
  { g with bridges := g.bridges ++ mqttBridges g mo ++ httpBridges g ho ++
      wsBridges g wo ++ serialBridges g ++ envBridges g eo }

/-- Model of `build_graph`: extraction in discovery order, then bridge
detection. -/
def build_graph (fs : List SourceFile) (mo ho wo eo : List String) : CodeGraph :=
  detect_bridges (build_graph_core fs) mo ho wo eo

-- ════════════════════════════════════════════════════════════════════
-- Subgraph extraction (CodeGraph.subgraph) and stats
-- ════════════════════════════════════════════════════════════════════

/-- Python `s.endswith(p)`. -/
def pyEndsWith (s p : String) : Bool :=
  p.data.isSuffixOf s.data

/-- The partial-match disambiguation block of `subgraph`: substring
matches over all node ids; a unique match wins; among several, prefer an
id ending with the input or whose last `:`-segment equals it, else the
first match.  (The source computes this value but seeds the BFS queue
before rebinding `start_id`, so the traversal never uses it.) -/
def resolveStartId (g : CodeGraph) (start_id : String) : String :=
  if (g.get_node start_id).isSome then start_id
  else
    let ms := (g.nodes.map (fun n => n.id)).filter (fun nid => pyIn start_id nid)
    match ms with
    | [] => start_id
    | [m] => m
    | _ =>
      let ex := ms.filter (fun m =>
        pyEndsWith m start_id ||
          (((splitChar ':' m.data).map String.mk).getLast? == some start_id))
      match ex with
      | [] => ms.headD start_id
      | m :: _ => m

/-- The BFS loop of `subgraph`, fuel-indexed: pop `(current, depth)`;
skip it when already visited or beyond `max_depth`; otherwise copy the
node (when present), copy every incident edge in both directions, and
enqueue unvisited endpoints at `depth + 1`. -/
def subgraphBfs (g : CodeGraph) (max_depth : Nat) :
    Nat → List (String × Nat) → List String → CodeGraph → CodeGraph
  | 0, _, _, sub => sub
  | fuel + 1, queue, visited, sub =>
    match queue with
    | [] => sub
    | (current, depth) :: rest =>
      if visited.contains current || decide (max_depth < depth) then
        subgraphBfs g max_depth fuel rest visited sub
      else
        let visited2 := current :: visited
        let sub2 := match g.get_node current with
          | some n => sub.add_node n
          | none => sub
        let fwd := g.forward_edges current
        let sub3 := fwd.foldl CodeGraph.add_edge sub2
        let enqF := (fwd.filter (fun e => !(visited2.contains e.target))).map
          (fun e => (e.target, depth + 1))
        let rev := g.reverse_edges current
        let sub4 := rev.foldl CodeGraph.add_edge sub3
        let enqR := (rev.filter (fun e => !(visited2.contains e.source))).map
          (fun e => (e.source, depth + 1))
        subgraphBfs g max_depth fuel (rest ++ enqF ++ enqR) visited2 sub4

/-- Fuel that strictly dominates the number of queue pops the BFS can
perform (every enqueue scans an incident edge of a freshly visited id,
and at most `nodes + 2·edges + 1` distinct ids ever get visited). -/
def subgraphFuel (g : CodeGraph) : Nat :=
  (g.nodes.length + 2 * g.edges.length + 2) * (2 * g.edges.length + 1) + 2

/-- Model of `subgraph`: the queue is seeded with the original `start_id` before
the partial-match resolution rebinds the local variable, so the BFS
always starts from the unresolved input; finally every bridge touching a
subgraph file is copied. -/
def CodeGraph.subgraph (g : CodeGraph) (start_id : String) (max_depth : Nat) : CodeGraph :=
  let _resolved := resolveStartId g start_id
  let sub := subgraphBfs g max_depth (subgraphFuel g) [(start_id, 0)] [] emptyCG
  let sub_files := dedupFirst (sub.nodes.filterMap
    (fun n => if n.file ≠ "" then some n.file else none))
  let kept := g.bridges.filter (fun b =>
    ((b.producers ++ b.consumers).map (fun p => p.file)).any
      (fun f => sub_files.contains f))
  { sub with bridges := sub.bridges ++ kept }

/-- The record returned by `stats()` (the JSON-ordered dicts for
`edge_types`/`bridge_types` are association lists). -/
structure Stats where
  nodes : Nat
  edges : Nat
  bridges : Nat
  files : Nat
  languages : List String
  edge_types : List (String × Nat)
  bridge_types : List (String × Nat)
deriving DecidableEq

/-- Stable insertion for descending-count order: a new item goes after
every item with a greater-or-equal count, matching Python's stable
`sorted(..., key=lambda x: -x[1])`. -/
def insertByCountDesc (x : String × Nat) : List (String × Nat) → List (String × Nat)
  | [] => [x]
  | y :: ys => if x.2 ≤ y.2 then y :: insertByCountDesc x ys else x :: y :: ys

/-- Stable sort by descending count. -/
def sortByCountDesc (l : List (String × Nat)) : List (String × Nat) :=
  l.foldl (fun acc x => insertByCountDesc x acc) []

/-- Model of `sum(1 for x in l if x == t)`. -/
def countOf (l : List String) (t : String) : Nat :=
  (l.filter (fun y => y == t)).length

/-- The member set of `{n.language for n in nodes.values()}` as a
deduplicated list (in node-insertion order). -/
def CodeGraph.languagesKeys (g : CodeGraph) : List String :=
  dedupFirst (g.nodes.map (fun n => n.language))

/-- Model of `stats()`, with the iteration order of the `languages` set passed
explicitly (a Python set of strings iterates in a hash-dependent,
run-varying order). -/
def CodeGraph.stats (g : CodeGraph) (langOrder : List String) : Stats :=
  let fileList := g.nodes.filterMap (fun n => if n.file ≠ "" then some n.file else none)
  let etypes := g.edges.map (fun e => e.edge_type)
  let btypes := g.bridges.map (fun b => b.bridge_type)
  { nodes := g.nodes.length
    edges := g.edges.length
    bridges := g.bridges.length
    files := (dedupFirst fileList).length
    languages := langOrder
    edge_types := sortByCountDesc ((dedupFirst etypes).map (fun t => (t, countOf etypes t)))
    bridge_types := sortByCountDesc ((dedupFirst btypes).map (fun t => (t, countOf btypes t))) }

-- ════════════════════════════════════════════════════════════════════
-- File reading (read_file_safe) and the reading pipeline
-- ════════════════════════════════════════════════════════════════════

/-- The encodings tried by `read_file_safe`, in order. -/
inductive Enc
  | utf8
  | latin1
  | ascii
deriving DecidableEq

/-- How a `fpath.read_text(encoding=enc)` call can fail: with one of the
exception classes the `except` clause catches (`UnicodeDecodeError`,
`ValueError`), or with any other exception (such as `PermissionError`
or another `OSError`), which the function does not catch. -/
inductive ReadErr
  | decodeErr
  | osErr
deriving DecidableEq

/-- The encoding loop of `read_file_safe`: return the first successful
decode, swallow caught failures and move to the next encoding, let any
other exception propagate; return `""` when every encoding failed with a
caught error. -/
def readFileSafeGo (readf : Enc → Except ReadErr String) : List Enc → Except ReadErr String
  | [] => .ok ""
  | e :: es =>
    match readf e with
    | .ok s => .ok s
    | .error .decodeErr => readFileSafeGo readf es
    | .error .osErr => .error .osErr

/-- Model of `read_file_safe`, over an abstract per-encoding reader. -/
def read_file_safe (readf : Enc → Except ReadErr String) : Except ReadErr String :=
  readFileSafeGo readf [.utf8, .latin1, .ascii]

/-- A discovered file before reading: its dispatch data plus the
behavior of `read_text` under each encoding. -/
structure RawFile where
  src : SourceFile
  readf : Enc → Except ReadErr String

/-- The reading half of `build_graph`: each file is read with
`read_file_safe` (whose uncaught exceptions abort the whole pipeline),
empty content is skipped, and everything else is parsed. -/
def buildGraphRead (fs : List RawFile) : Except ReadErr CodeGraph :=
  fs.foldlM
    (fun g f =>
      match read_file_safe f.readf with
      | .error err => .error err
      | .ok c => .ok (processFile g { f.src with empty := c = "" }))
    emptyCG

-- ════════════════════════════════════════════════════════════════════
-- Claim C6: mqtt_topic_matches against the specified segment algorithm
-- ════════════════════════════════════════════════════════════════════

/-- The matching algorithm as the specification words it: iterate pattern
segments in order; `#` matches all remaining topic segments (true), `+`
matches exactly one topic segment, any other pattern segment must equal
the corresponding topic segment, and otherwise pattern and topic must
have the same number of segments. -/
def mqttSpecMatch : List String → List String → Bool
  | [], ts => ts.isEmpty
  | p :: ps, ts =>
    if p = "#" then true
    else
      match ts with
      | [] => false
      | t :: ts2 =>
        if p = "+" then mqttSpecMatch ps ts2
        else if p = t then mqttSpecMatch ps ts2
        else false

/-- The first node inserted under id `file:a.py` in the C8 witness. -/
def dupNodeFirst : Node :=
  { id := "file:a.py", file := "a.py", name := "a.py", node_type := "file",
    language := "python", line := 1 }

/-- A later, different node carrying the same id. -/
def dupNodeSecond : Node :=
  { id := "file:a.py", file := "other.py", name := "other", node_type := "file",
    language := "js", line := 7 }

/-- Model of `a.js` importing `./b.js` (the chain scenario). -/
def chainA : SourceFile :=
  { relp := "a.js", name := "a.js", js := [(1, { imports := ["./b.js"] })] }

/-- Model of `b.js` importing `./c.js`. -/
def chainB : SourceFile :=
  { relp := "b.js", name := "b.js", js := [(1, { imports := ["./c.js"] })] }

/-- Model of `c.js`, no matches. -/
def chainC : SourceFile :=
  { relp := "c.js", name := "c.js" }

/-- The chain graph `file:a.js → imports → file:b.js → imports →
file:c.js` (all bridge key sets are empty, so the empty enumerations are
the valid set orders). -/
def chainGraph : CodeGraph :=
  build_graph [chainA, chainB, chainC] [] [] [] []

/-- A two-language project (one Python file, one JS file). -/
def cgLang : CodeGraph :=
  build_graph_core
    [{ relp := "a.py", name := "a.py" }, { relp := "b.js", name := "b.js" }]

/-- A project with two cross-language MQTT topics. -/
def cgMqtt : CodeGraph :=
  build_graph_core
    [{ relp := "a.py", name := "a.py",
       py := [(1, { mqtt_pubs := ["alpha"] }), (2, { mqtt_pubs := ["beta"] })] },
     { relp := "b.ino", name := "b.ino",
       cpp := [(1, { mqtt_subs := ["alpha"] }), (2, { mqtt_subs := ["beta"] })] }]

/-- The scenario graph: `app.js` line 5 calls `fetch('/users/42')` and
`srv.py` line 10 defines `@app.route('/users/<id>')` (files in sorted
discovery order). -/
def httpScenario : CodeGraph :=
  build_graph_core
    [{ relp := "app.js", name := "app.js",
       js := [(5, { api_calls := [("GET", "/users/42")] })] },
     { relp := "srv.py", name := "srv.py",
       py := [(10, { routes := ["/users/<id>"] })] }]

/-- The bridge the code actually emits for the scenario. -/
def httpScenarioBridge : Bridge :=
  { bridge_type := "http", key := "UNMATCHED:/users/42", producers := [],
    consumers := [{ file := "app.js", line := 5, language := "js",
                    action := "calls /users/42" }] }

/-- The scenario graph: `a.py` line 3 publishes `sensors/temperature`
and `b.ino` line 7 subscribes `sensors/+`. -/
def mqttScenario : CodeGraph :=
  build_graph_core
    [{ relp := "a.py", name := "a.py",
       py := [(3, { mqtt_pubs := ["sensors/temperature"] })] },
     { relp := "b.ino", name := "b.ino",
       cpp := [(7, { mqtt_subs := ["sensors/+"] })] }]

/-- The single bridge the scenario must produce. -/
def mqttScenarioBridge : Bridge :=
  { bridge_type := "mqtt", key := "sensors/temperature",
    producers := [{ file := "a.py", line := 3, language := "python",
                    action := "publish" }],
    consumers := [{ file := "b.ino", line := 7, language := "arduino",
                    action := "subscribe" }] }

/-- The guarantee the extractors provide for env edges: every
`env_uses`/`env_defines` edge targets `env:` followed by a colon-free
variable name (the extractor regexes capture `\w+`). -/
def envTargetsWf (g : CodeGraph) : Bool :=
  g.edges.all (fun e =>
    !(e.edge_type == "env_uses" || e.edge_type == "env_defines") ||
      (pyStartsWith e.target "env:" && !((e.target.data.drop 4).contains ':')))

/-- The undefined-variable scenario: `srv.js` uses
`process.env.DATABASE_URL` and nothing defines it. -/
def envScenario : CodeGraph :=
  build_graph_core
    [{ relp := "srv.js", name := "srv.js",
       js := [(2, { env_uses := ["DATABASE_URL"] })] }]

/-- Invariant 1 of the specification: every edge originates at a node
that is present in the node map. -/
def edgeSourcesCovered (g : CodeGraph) : Prop :=
  ∀ e ∈ g.edges, ((g.get_node e.source)).isSome

/-- The invariant together with the presence of the current file node
(threaded through the per-line extractor steps). -/
def coveredWith (fid : String) (g : CodeGraph) : Prop :=
  edgeSourcesCovered g ∧ ((g.get_node fid)).isSome

/-- The single-file project of the C9 witness: `a.py` importing `os`. -/
def c9File : SourceFile :=
  { relp := "a.py", name := "a.py", py := [(1, { imports := ["os"] })] }

/-- The edge that import produces. -/
def c9Edge : Edge :=
  { source := "file:a.py", target := "file:os", edge_type := "imports",
    file := "a.py", line := 1, metadata := [("module", "os")] }

theorem mem_dedupFirstAux (x : String) :
    ∀ (l : List String) (seen : List String),
      x ∈ dedupFirstAux seen l ↔ x ∈ l ∧ x ∉ seen := by
  intro l
  induction l with
  | nil => intro seen; simp [dedupFirstAux]
  | cons y ys ih =>
    intro seen
    by_cases hy : y ∈ seen
    · simp only [dedupFirstAux, if_pos hy, ih, List.mem_cons]
      constructor
      · rintro ⟨h1, h2⟩; exact ⟨Or.inr h1, h2⟩
      · rintro ⟨h1 | h1, h2⟩
        · exact absurd (h1 ▸ hy) h2
        · exact ⟨h1, h2⟩
    · simp only [dedupFirstAux, if_neg hy, List.mem_cons, ih]
      constructor
      · rintro (rfl | ⟨h1, h2⟩)
        · exact ⟨Or.inl rfl, hy⟩
        · exact ⟨Or.inr h1, fun hc => h2 (Or.inr hc)⟩
      · rintro ⟨rfl | h1, h2⟩
        · exact Or.inl rfl
        · by_cases hxy : x = y
          · exact Or.inl hxy
          · refine Or.inr ⟨h1, fun hc => ?_⟩
            rcases hc with h | h
            · exact hxy h
            · exact h2 h

theorem mem_dedupFirst (x : String) (l : List String) :
    x ∈ dedupFirst l ↔ x ∈ l := by
  simp [dedupFirst, mem_dedupFirstAux]

theorem charOfNat_toNat (n : Nat) (h : n < 55296) : (Char.ofNat n).toNat = n := by
  have hv : n.isValidChar := Or.inl h
  simp [Char.ofNat, hv, Char.ofNatAux, Char.toNat, UInt32.toNat, BitVec.toNat_ofNat]

theorem pyLowerChar_ne_U (c : Char) : pyLowerChar c ≠ 'U' := by
  intro h
  rw [pyLowerChar] at h
  split at h
  · rename_i hc
    have h1 : 65 ≤ c.toNat := by
      have := hc.1
      simp only [Char.le_def] at this
      exact this
    have h2 : c.toNat ≤ 90 := by
      have := hc.2
      simp only [Char.le_def] at this
      exact this
    have h3 : (Char.ofNat (c.toNat + 32)).toNat = c.toNat + 32 :=
      charOfNat_toNat _ (by omega)
    rw [h] at h3
    have h4 : ('U').toNat = 85 := by decide
    omega
  · rename_i hc
    exact hc (h ▸ ⟨by decide, by decide⟩)

/-- A fold preserves any invariant that every step preserves. -/
theorem foldl_preserves {α β : Type} (P : α → Prop) (step : α → β → α)
    (h : ∀ a b, P a → P (step a b)) :
    ∀ (l : List β) (a : α), P a → P (l.foldl step a) := by
  intro l
  induction l with
  | nil => intro a ha; exact ha
  | cons x xs ih => intro a ha; exact ih (step a x) (h a x ha)

-- ════════════════════════════════════════════════════════════════════
-- Data model (codegraph.py: Node, Edge, Bridge, CodeGraph)
-- ════════════════════════════════════════════════════════════════════

theorem length_dropWhile_le {α : Type} (p : α → Bool) (l : List α) :
    (l.dropWhile p).length ≤ l.length := by
  induction l with
  | nil => simp [List.dropWhile]
  | cons x xs ih =>
    by_cases h : p x
    · simp only [List.dropWhile, h]
      exact Nat.le_trans ih (Nat.le_succ _)
    · simp [List.dropWhile, h]

theorem mqttSpecMatch_refl : ∀ l : List String, mqttSpecMatch l l = true := by
  intro l
  induction l with
  | nil => rfl
  | cons p ps ih =>
    by_cases hp : p = "#"
    · simp [mqttSpecMatch, hp]
    · by_cases hplus : p = "+"
      · simp [mqttSpecMatch, hp, hplus, ih]
      · simp [mqttSpecMatch, hp, hplus, ih]

theorem stringMk_eq_iff (p q : List Char) : (String.mk p = String.mk q) ↔ p = q :=
  ⟨fun h => congrArg String.data h, fun h => by rw [h]⟩

theorem mqttMatchSegs_eq_spec :
    ∀ (xs ys : List (List Char)),
      mqttMatchSegs xs ys = mqttSpecMatch (xs.map String.mk) (ys.map String.mk) := by
  intro xs
  induction xs with
  | nil => intro ys; cases ys <;> rfl
  | cons p ps ih =>
    intro ys
    have hHash : ("#" : String) = String.mk ['#'] := rfl
    have hPlus : ("+" : String) = String.mk ['+'] := rfl
    cases ys with
    | nil =>
      simp only [List.map, mqttMatchSegs, mqttSpecMatch, hHash, hPlus, stringMk_eq_iff]
    | cons t ts =>
      simp only [List.map, mqttMatchSegs, mqttSpecMatch, hHash, hPlus, stringMk_eq_iff, ih]

/-- C6: for every subscription pattern and topic, `mqtt_topic_matches`
splits both on `/` and decides exactly the segment-walk described by the
specification: `#` matches all remaining segments, `+` matches exactly
one, any other segment must be equal, and otherwise the segment counts
must agree. -/
theorem claim_C6_mqtt_topic_matches (pattern topic : String) :
    mqtt_topic_matches pattern topic =
      mqttSpecMatch ((splitChar '/' pattern.data).map String.mk)
        ((splitChar '/' topic.data).map String.mk) := by
  unfold mqtt_topic_matches
  by_cases heq : pattern = topic
  · subst heq
    simp [mqttSpecMatch_refl]
  · have hbeq : (pattern == topic) = false := by
      simp [heq]
    rw [hbeq, Bool.false_or, mqttMatchSegs_eq_spec]

-- ════════════════════════════════════════════════════════════════════
-- Claim C8: add_node inserts when absent and is a no-op otherwise
-- ════════════════════════════════════════════════════════════════════

theorem get_node_add_node (g : CodeGraph) (n : Node) (i : String) :
    (g.add_node n).get_node i =
      (g.get_node i).or (if (g.get_node n.id).isSome then none
                         else if n.id == i then some n else none) := by
  unfold CodeGraph.add_node
  by_cases hs : (g.get_node n.id).isSome
  · simp only [hs, if_pos]
    cases h : g.get_node i <;> simp [Option.or]
  · simp only [hs, if_neg, Bool.false_eq_true, not_false_iff]
    unfold CodeGraph.get_node
    simp only [List.find?_append]
    have : List.find? (fun m => m.id == i) [n] = if n.id == i then some n else none := by
      by_cases h : n.id == i <;> simp [List.find?, h]
    simp [this, hs]

theorem get_node_foldl_add_node :
    ∀ (ns : List Node) (g : CodeGraph) (i : String),
      ((ns.foldl CodeGraph.add_node g).get_node i) =
        (g.get_node i).or (ns.find? (fun n => n.id == i)) := by
  intro ns
  induction ns with
  | nil => intro g i; simp
  | cons n ns ih =>
    intro g i
    rw [List.foldl_cons, ih, get_node_add_node]
    by_cases hn : n.id == i
    · by_cases hi : (g.get_node i).isSome
      · rcases Option.isSome_iff_exists.mp hi with ⟨v, hv⟩
        simp [hv, Option.or]
      · have hnone : g.get_node i = none := Option.not_isSome_iff_eq_none.mp hi
        have hni : n.id = i := by simpa using hn
        have hs : (g.get_node n.id).isSome = false := by
          rw [hni, hnone]; rfl
        simp [hnone, hs, hn, Option.or, List.find?]
    · have hfind : List.find? (fun m => m.id == i) (n :: ns) =
          List.find? (fun m => m.id == i) ns := by
        simp [List.find?, hn]
      by_cases hs : (g.get_node n.id).isSome <;>
        cases h : g.get_node i <;>
          simp [hfind, hs, hn, Option.or]

/-- C8: `add_node` is a no-op whenever a node with the same id is already
present (the whole graph, edges and bridges included, is unchanged), and
after any sequence of insertions starting from the empty graph the node
stored under an id is the first node ever added with that id, with its
original fields. -/
theorem claim_C8_add_node_first_wins :
    (∀ (g : CodeGraph) (n : Node), (g.get_node n.id).isSome → g.add_node n = g) ∧
    (∀ (ns : List Node) (i : String),
      ((ns.foldl CodeGraph.add_node emptyCG).get_node i) =
        ns.find? (fun n => n.id == i)) := by
  constructor
  · intro g n h
    unfold CodeGraph.add_node
    simp [h]
  · intro ns i
    rw [get_node_foldl_add_node]
    have : emptyCG.get_node i = none := rfl
    simp [this, Option.or]

/-- Witness for C8 at a concrete duplicate insertion. -/
theorem claim_C8_witness :
    ((emptyCG.add_node dupNodeFirst).add_node dupNodeSecond =
      emptyCG.add_node dupNodeFirst) ∧
    (([dupNodeFirst, dupNodeSecond].foldl CodeGraph.add_node emptyCG).get_node
        "file:a.py" = some dupNodeFirst) := by
  constructor
  · exact claim_C8_add_node_first_wins.1 _ _ (by decide)
  · rw [claim_C8_add_node_first_wins.2]
    decide

-- ════════════════════════════════════════════════════════════════════
-- Claim C7: read_file_safe and read-failure handling
-- ════════════════════════════════════════════════════════════════════

/-- C7 (code evaluated at the failing input): the encoding loop of
`read_file_safe` catches only decode-class errors, so a read that fails
with an OS-class error (such as `PermissionError`) propagates out of
`read_file_safe` and aborts the whole reading pipeline, while
decode-class failures do fall through the UTF-8 → Latin-1 → ASCII chain
and end in the empty string, which makes the pipeline skip the file. -/
theorem claim_C7_permission_error_aborts :
    read_file_safe (fun _ => .error .osErr) = .error .osErr ∧
    buildGraphRead [{ src := { relp := "a.py", name := "a.py" },
                      readf := fun _ => .error .osErr }] = .error .osErr ∧
    read_file_safe (fun e => match e with
      | .utf8 => .error .decodeErr
      | _ => .ok "x") = .ok "x" ∧
    read_file_safe (fun _ => .error .decodeErr) = .ok "" ∧
    buildGraphRead [{ src := { relp := "a.py", name := "a.py" },
                      readf := fun _ => .error .decodeErr }] = .ok emptyCG := by
  refine ⟨rfl, rfl, rfl, rfl, rfl⟩

-- ════════════════════════════════════════════════════════════════════
-- Claim C2: subgraph extraction on the three-file import chain
-- ════════════════════════════════════════════════════════════════════

/-- C2 (code evaluated at the failing input): `subgraph("a.js", 1)` on
the chain returns the empty graph, because the BFS queue is seeded with
the unresolved input id before the partial-match block rebinds
`start_id` (the resolution itself would find `file:a.js`); and even
starting from the exact id `file:a.js`, the depth-1 subgraph contains
the `b.js → c.js` edge (whose far endpoint is not in the subgraph) and
contains the `a.js → b.js` edge twice, rather than exactly one edge. -/
theorem claim_C2_subgraph_scenario :
    (chainGraph.subgraph "a.js" 1).nodes = [] ∧
    (chainGraph.subgraph "a.js" 1).edges = [] ∧
    (chainGraph.subgraph "a.js" 1).bridges = [] ∧
    resolveStartId chainGraph "a.js" = "file:a.js" ∧
    (chainGraph.subgraph "file:a.js" 1).nodes =
      [{ id := "file:a.js", file := "a.js", name := "a.js", node_type := "file",
         language := "js" },
       { id := "file:b.js", file := "b.js", name := "b.js", node_type := "file",
         language := "js" }] ∧
    (chainGraph.subgraph "file:a.js" 1).edges =
      [{ source := "file:a.js", target := "file:b.js", edge_type := "imports",
         file := "a.js", line := 1, metadata := [("raw", "./b.js")] },
       { source := "file:b.js", target := "file:c.js", edge_type := "imports",
         file := "b.js", line := 1, metadata := [("raw", "./c.js")] },
       { source := "file:a.js", target := "file:b.js", edge_type := "imports",
         file := "a.js", line := 1, metadata := [("raw", "./b.js")] }] := by
  refine ⟨by decide, by decide, by decide, by decide, by decide, by decide⟩

-- ════════════════════════════════════════════════════════════════════
-- Claim C1: the output depends on the set-iteration order
-- ════════════════════════════════════════════════════════════════════

/-- C1 (code evaluated at the failing input): both orders below are
legitimate iteration orders of the corresponding Python string sets
(permutations of the collected key sets), yet `stats()` and the MQTT
stage of `detect_bridges` produce different output under them — the
program's output is a function of the hash-dependent set order, so two
runs need not be byte-identical, and no sorting of the keys takes
place. -/
theorem claim_C1_output_depends_on_set_order :
    List.Perm ["python", "js"] cgLang.languagesKeys ∧
    List.Perm ["js", "python"] cgLang.languagesKeys ∧
    cgLang.stats ["python", "js"] ≠ cgLang.stats ["js", "python"] ∧
    List.Perm ["alpha", "beta"] (mqttKeys cgMqtt) ∧
    List.Perm ["beta", "alpha"] (mqttKeys cgMqtt) ∧
    mqttBridges cgMqtt ["alpha", "beta"] ≠ mqttBridges cgMqtt ["beta", "alpha"] := by
  refine ⟨by decide, by decide, by decide, by decide, by decide, by decide⟩

-- ════════════════════════════════════════════════════════════════════
-- Claim C10: accepted config files that no parser consumes
-- ════════════════════════════════════════════════════════════════════

/-- C10: a discovered file whose lowercased suffix is one of
`.json/.yaml/.yml/.toml/.ini`, whose basename is not `package.json` and
does not start with `.env`, is accepted by discovery but leaves the
graph (and hence every statistic, including the file count) completely
unchanged. -/
theorem claim_C10_config_files_no_contribution (g : CodeGraph) (f : SourceFile)
    (hext : pathSuffixLower f.name = ".json" ∨ pathSuffixLower f.name = ".yaml" ∨
      pathSuffixLower f.name = ".yml" ∨ pathSuffixLower f.name = ".toml" ∨
      pathSuffixLower f.name = ".ini")
    (hpkg : f.name ≠ "package.json")
    (henv : pyStartsWith f.name ".env" = false) :
    processFile g f = g ∧ acceptsName f.name = true ∧
      ∀ lo, (processFile g f).stats lo = g.stats lo := by
  have hmain : processFile g f = g := by
    unfold processFile
    by_cases he : f.empty
    · simp [he]
    · rcases hext with h | h | h | h | h <;> simp [he, h, henv, hpkg]
  refine ⟨hmain, ?_, fun lo => by rw [hmain]⟩
  unfold acceptsName
  rcases hext with h | h | h | h | h <;> simp [h]

/-- Witness for C10 at a concrete `config.yaml`. -/
theorem claim_C10_witness :
    processFile emptyCG { relp := "config.yaml", name := "config.yaml" } = emptyCG ∧
    acceptsName "config.yaml" = true := by
  have h := claim_C10_config_files_no_contribution emptyCG
    { relp := "config.yaml", name := "config.yaml" }
    (Or.inr (Or.inl (by decide))) (by decide) (by decide)
  exact ⟨h.1, h.2.1⟩

-- ════════════════════════════════════════════════════════════════════
-- Claim C4: HTTP path normalization and the Flask-marker scenario
-- ════════════════════════════════════════════════════════════════════

theorem subColonGo_id (fuel : Nat) :
    ∀ (l : List Char), (∀ c ∈ l, c ≠ ':') → subColonGo fuel l = l := by
  induction fuel with
  | zero => intro l _; rfl
  | succ n ih =>
    intro l h
    cases l with
    | nil => rfl
    | cons c cs =>
      have hc : ¬ (c = ':') := h c (List.mem_cons_self c cs)
      simp only [subColonGo, if_neg hc]
      rw [ih cs (fun x hx => h x (List.mem_cons_of_mem _ hx))]

theorem subDollarGo_id (fuel : Nat) :
    ∀ (l : List Char), (∀ c ∈ l, c ≠ '$') → subDollarGo fuel l = l := by
  induction fuel with
  | zero => intro l _; rfl
  | succ n ih =>
    intro l h
    cases l with
    | nil => rfl
    | cons c cs =>
      have hc : ¬ (c = '$' ∧ cs.head? = some '{') :=
        fun hand => h c (List.mem_cons_self c cs) hand.1
      simp only [subDollarGo, if_neg hc]
      rw [ih cs (fun x hx => h x (List.mem_cons_of_mem _ hx))]

theorem subBraceGo_id (fuel : Nat) :
    ∀ (l : List Char), (∀ c ∈ l, c ≠ '{') → subBraceGo fuel l = l := by
  induction fuel with
  | zero => intro l _; rfl
  | succ n ih =>
    intro l h
    cases l with
    | nil => rfl
    | cons c cs =>
      have hc : ¬ (c = '{') := h c (List.mem_cons_self c cs)
      simp only [subBraceGo, if_neg hc]
      rw [ih cs (fun x hx => h x (List.mem_cons_of_mem _ hx))]

theorem rstripSlash_id (l : List Char) (h : l.getLast? ≠ some '/') :
    rstripSlash l = l := by
  unfold rstripSlash
  cases hr : l.reverse with
  | nil =>
    have : l = [] := List.reverse_eq_nil_iff.mp hr
    subst this
    rfl
  | cons c cs =>
    have hlast : l.getLast? = some c := by
      rw [← List.head?_reverse, hr]
      rfl
    have hc : ¬ (c = '/') := fun hcc => h (by rw [hlast, hcc])
    have : List.dropWhile (fun x => decide (x = '/')) (c :: cs) = c :: cs := by
      simp [List.dropWhile, hc]
    rw [this, ← hr, List.reverse_reverse]

theorem map_pyLowerChar_id : ∀ (l : List Char), (∀ c ∈ l, pyLowerChar c = c) →
    l.map pyLowerChar = l := by
  intro l
  induction l with
  | nil => intro _; rfl
  | cons c cs ih =>
    intro h
    simp only [List.map]
    rw [h c (List.mem_cons_self c cs), ih (fun x hx => h x (List.mem_cons_of_mem _ hx))]

theorem normalize_http_path_id (p : String)
    (h1 : ∀ c ∈ p.data, c ≠ ':' ∧ c ≠ '$' ∧ c ≠ '{' ∧ pyLowerChar c = c)
    (h2 : p.data.getLast? ≠ some '/') :
    normalize_http_path p = p := by
  unfold normalize_http_path subColonParams subDollarBrace subBraceParams pyLower
  rw [subColonGo_id _ _ (fun c hc => (h1 c hc).1)]
  rw [subDollarGo_id _ _ (fun c hc => (h1 c hc).2.1)]
  rw [subBraceGo_id _ _ (fun c hc => (h1 c hc).2.2.1)]
  rw [rstripSlash_id _ h2]
  rw [map_pyLowerChar_id _ (fun c hc => (h1 c hc).2.2.2)]

/-- C4 counterexample: `normalize_http_path` does not touch the
Flask-style `<id>` marker, so the two scenario paths do not both
normalize to `/users/{param}`; moreover the Python endpoint node carries
no `path` metadata, so its definition key is the normalized node id
`http{param}:/users/<id>`; under every iteration order of the key set
the scenario yields exactly one `UNMATCHED:` bridge and no matched
bridge. -/
theorem claim_C4_counterexample :
    normalize_http_path "/users/<id>" = "/users/<id>" ∧
    ¬ (normalize_http_path "/users/<id>" = "/users/{param}") ∧
    normalize_http_path "/users/42" = "/users/42" ∧
    httpDefKeys httpScenario = ["http{param}:/users/<id>"] ∧
    httpCallKeys httpScenario = ["/users/42"] ∧
    List.Perm ["http{param}:/users/<id>", "/users/42"] (httpKeys httpScenario) ∧
    List.Perm ["/users/42", "http{param}:/users/<id>"] (httpKeys httpScenario) ∧
    httpBridges httpScenario ["http{param}:/users/<id>", "/users/42"] =
      [httpScenarioBridge] ∧
    httpBridges httpScenario ["/users/42", "http{param}:/users/<id>"] =
      [httpScenarioBridge] := by
  refine ⟨by decide, by decide, by decide, by decide, by decide, by decide, by decide,
    by decide, by decide⟩

/-- C4 as amended: `normalize_http_path` replaces `:name`, `${…}` and
`{…}` markers with the literal `{param}`, strips trailing slashes and
lowercases, and is the identity on lowercase static paths without a
trailing slash; but Flask-style `<id>` markers are not markers to it, so
`/users/<id>` and `/users/42` normalize to themselves, the definition
key of the metadata-less Python endpoint is `http{param}:/users/<id>`,
and the scenario produces one `UNMATCHED:/users/42` bridge (consumer
`app.js`) instead of a matched bridge. -/
theorem claim_C4_amended :
    normalize_http_path "/users/:id" = "/users/{param}" ∧
    normalize_http_path "/users/${id}" = "/users/{param}" ∧
    normalize_http_path "/users/{id}" = "/users/{param}" ∧
    normalize_http_path "/API/Users/" = "/api/users" ∧
    (∀ p : String,
      (∀ c ∈ p.data, c ≠ ':' ∧ c ≠ '$' ∧ c ≠ '{' ∧ pyLowerChar c = c) →
      p.data.getLast? ≠ some '/' →
      normalize_http_path p = p) ∧
    normalize_http_path "/users/<id>" = "/users/<id>" ∧
    normalize_http_path "/users/42" = "/users/42" ∧
    httpBridges httpScenario ["http{param}:/users/<id>", "/users/42"] =
      [httpScenarioBridge] := by
  refine ⟨by decide, by decide, by decide, by decide,
    fun p h1 h2 => normalize_http_path_id p h1 h2, by decide, by decide, by decide⟩

/-- Witness for C4's amended statement at a concrete static path. -/
theorem claim_C4_amended_witness :
    normalize_http_path "/api/users" = "/api/users" := by
  exact claim_C4_amended.2.2.2.2.1 "/api/users" (by decide) (by decide)

-- ════════════════════════════════════════════════════════════════════
-- Claim C3: MQTT bridge emission
-- ════════════════════════════════════════════════════════════════════

/-- C3: for every graph and every iteration order of the collected topic
set, a topic `T` of the set gets an MQTT bridge iff its producers
together with its consumers (those of `T` itself plus those of every
other subscribed pattern that wildcard-matches `T`) span more than one
distinct file or more than one distinct language; and the
publish/subscribe scenario emits exactly the single expected bridge
under either iteration order of its two collected topics. -/
theorem claim_C3_mqtt_bridge_iff :
    (∀ (g : CodeGraph) (ord : List String) (T : String),
        List.Perm ord (mqttKeys g) → T ∈ mqttKeys g →
        ((∃ b ∈ mqttBridges g ord, b.key = T) ↔
          (1 < distinctCount ((mqtt_producers g T ++ mqttConsFor g T).map (fun p => p.file)) ∨
           1 < distinctCount ((mqtt_producers g T ++ mqttConsFor g T).map (fun p => p.language))))) ∧
    mqttBridges mqttScenario ["sensors/temperature", "sensors/+"] = [mqttScenarioBridge] ∧
    mqttBridges mqttScenario ["sensors/+", "sensors/temperature"] = [mqttScenarioBridge] := by
  refine ⟨?_, by decide, by decide⟩
  intro g ord T hperm hT
  constructor
  · rintro ⟨b, hb, hkey⟩
    simp only [mqttBridges, List.mem_filterMap] at hb
    obtain ⟨t, _ht, hf⟩ := hb
    unfold mqttBridgeFor at hf
    split at hf
    · rename_i hcond
      injection hf with hA
      rw [← hA] at hkey
      have ht2 : t = T := hkey
      subst ht2
      exact hcond.2
    · exact absurd hf (by simp)
  · intro hspan
    have hT2 := hT
    unfold mqttKeys at hT2
    rw [mem_dedupFirst, List.mem_append] at hT2
    have hne : mqtt_producers g T ≠ [] ∨ mqttConsFor g T ≠ [] := by
      rcases hT2 with hp | hs
      · left
        simp only [mqttPubTopics, List.mem_filterMap] at hp
        obtain ⟨e, he, hfe⟩ := hp
        split at hfe
        · rename_i hpub
          injection hfe with htop
          have hmem : ({ file := e.file, line := e.line,
                         language := langOfFile g e.file,
                         action := "publish" } : BridgeEntry) ∈ mqtt_producers g T := by
            simp only [mqtt_producers, List.mem_filterMap]
            exact ⟨e, he, by rw [if_pos ⟨hpub, htop⟩]⟩
          exact List.ne_nil_of_mem hmem
        · exact absurd hfe (by simp)
      · right
        have hcons : mqtt_consumers g T ≠ [] := by
          simp only [mqttSubTopics, List.mem_filterMap] at hs
          obtain ⟨e, he, hfe⟩ := hs
          split at hfe
          · rename_i hsub
            injection hfe with htop
            have hmem : mqttConsEntry g e ∈ mqtt_consumers g T := by
              simp only [mqtt_consumers, List.mem_filterMap]
              exact ⟨e, he, by rw [if_pos ⟨hsub, htop⟩]⟩
            exact List.ne_nil_of_mem hmem
          · exact absurd hfe (by simp)
        unfold mqttConsFor
        exact foldl_preserves (fun acc => acc ≠ [])
          (fun acc s => if s ≠ T ∧ mqtt_topic_matches s T = true
            then acc ++ mqtt_consumers g s else acc)
          (fun a b ha => by
            show (if b ≠ T ∧ mqtt_topic_matches b T = true
              then a ++ mqtt_consumers g b else a) ≠ []
            split
            · intro hx
              exact ha (List.append_eq_nil.mp hx).1
            · exact ha)
          (mqttConsKeys g) (mqtt_consumers g T) hcons
    refine ⟨{ bridge_type := "mqtt", key := T, producers := mqtt_producers g T,
              consumers := mqttConsFor g T }, ?_, rfl⟩
    simp only [mqttBridges, List.mem_filterMap]
    refine ⟨T, hperm.mem_iff.mpr hT, ?_⟩
    unfold mqttBridgeFor
    rw [if_pos ⟨hne, hspan⟩]

/-- Witness for C3 at the scenario graph. -/
theorem claim_C3_witness :
    ∃ b ∈ mqttBridges mqttScenario ["sensors/temperature", "sensors/+"],
      b.key = "sensors/temperature" := by
  exact (claim_C3_mqtt_bridge_iff.1 mqttScenario ["sensors/temperature", "sensors/+"]
    "sensors/temperature" (by decide) (by decide)).mpr (by decide)

-- ════════════════════════════════════════════════════════════════════
-- Claim C5: shape of UNMATCHED:/UNDEFINED: bridges
-- ════════════════════════════════════════════════════════════════════

theorem replaceAllGo_id (old new : List Char) (c0 : Char) (hc0 : c0 ∈ old) :
    ∀ (fuel : Nat) (l : List Char), c0 ∉ l → replaceAllGo old new fuel l = l := by
  intro fuel
  induction fuel with
  | zero => intro l _; rfl
  | succ n ih =>
    intro l hl
    cases l with
    | nil => rfl
    | cons c cs =>
      have hpre : ¬ (old ≠ [] ∧ old.isPrefixOf (c :: cs) = true) := by
        rintro ⟨_, hp⟩
        exact hl ((List.isPrefixOf_iff_prefix.mp hp).subset hc0)
      simp only [replaceAllGo, if_neg hpre]
      rw [ih cs (fun hx => hl (List.mem_cons_of_mem _ hx))]

theorem pyReplace_env_strip (v : List Char) (hv : ':' ∉ v) :
    replaceAll ("env:".data) [] ("env:".data ++ v) = v := by
  have hs : "env:".data ++ v = 'e' :: 'n' :: 'v' :: ':' :: v := rfl
  unfold replaceAll
  rw [hs]
  have hlen : ('e' :: 'n' :: 'v' :: ':' :: v).length = (v.length + 3) + 1 := by simp
  rw [hlen]
  have hpre : ("env:".data).isPrefixOf ('e' :: 'n' :: 'v' :: ':' :: v) = true :=
    List.isPrefixOf_iff_prefix.mpr ⟨v, rfl⟩
  have hcond : ("env:".data ≠ [] ∧
      ("env:".data).isPrefixOf ('e' :: 'n' :: 'v' :: ':' :: v) = true) := ⟨by decide, hpre⟩
  simp only [replaceAllGo, if_pos hcond]
  have hdrop : ('e' :: 'n' :: 'v' :: ':' :: v).drop ("env:".data).length = v := rfl
  rw [hdrop, List.nil_append]
  exact replaceAllGo_id ("env:".data) [] ':' (by decide) (v.length + 3) v hv

theorem envVarOf_of_wf (e : Edge)
    (h1 : pyStartsWith e.target "env:" = true)
    (h2 : (e.target.data.drop 4).contains ':' = false) :
    envVarOf e = String.mk (e.target.data.drop 4) ∧ ':' ∉ e.target.data.drop 4 := by
  obtain ⟨t, ht⟩ := List.isPrefixOf_iff_prefix.mp h1
  have hdrop : e.target.data.drop 4 = t := by
    rw [← ht]
    have h4 : ("env:".data).length = 4 := rfl
    rw [← h4]
    exact List.drop_left "env:".data t
  have hmem : ':' ∉ t := by
    intro hx
    have hcc : t.contains ':' = true := List.elem_iff.mpr hx
    rw [hdrop] at h2
    exact absurd (h2.symm.trans hcc) (by decide)
  constructor
  · show String.mk (replaceAll ("env:".data) ("".data) e.target.data) =
      String.mk (e.target.data.drop 4)
    rw [hdrop, ← ht]
    have hrepl : replaceAll ("env:".data) ("".data) ("env:".data ++ t) = t :=
      pyReplace_env_strip t hmem
    rw [hrepl]
  · rw [hdrop]
    exact hmem

theorem envTargetsWf_spec (g : CodeGraph) (hwf : envTargetsWf g = true) (e : Edge)
    (he : e ∈ g.edges) (hty : e.edge_type = "env_uses" ∨ e.edge_type = "env_defines") :
    pyStartsWith e.target "env:" = true ∧ (e.target.data.drop 4).contains ':' = false := by
  simp only [envTargetsWf, List.all_eq_true] at hwf
  have h := hwf e he
  rcases hty with h1 | h1
  · rw [h1] at h
    simp at h
    exact ⟨h.1, by simp [h.2]⟩
  · rw [h1] at h
    simp at h
    exact ⟨h.1, by simp [h.2]⟩

theorem pyStartsWith_normalize_unmatched (s : String) :
    pyStartsWith (normalize_http_path s) "UNMATCHED:" = false := by
  show ("UNMATCHED:".data).isPrefixOf (normalize_http_path s).data = false
  have hU : "UNMATCHED:".data = 'U' :: "NMATCHED:".data := rfl
  have hdata : (normalize_http_path s).data =
      (rstripSlash (subBraceParams (subDollarBrace (subColonParams s.data)))).map
        pyLowerChar := rfl
  rw [hU, hdata]
  generalize (rstripSlash (subBraceParams (subDollarBrace (subColonParams s.data)))) = l
  cases l with
  | nil => rfl
  | cons c cs =>
    have hne : ('U' == pyLowerChar c) = false := by
      rw [beq_eq_false_iff_ne]
      exact fun h => pyLowerChar_ne_U c h.symm
    simp [List.isPrefixOf, hne]

theorem string_append_left_cancel {a t v : String} (h : a ++ t = a ++ v) : t = v := by
  have hd := congrArg String.data h
  simp only [String.data_append] at hd
  have h2 := List.append_cancel_left hd
  cases t with
  | mk td =>
    cases v with
    | mk vd => exact congrArg String.mk h2

theorem mqttBridges_type (g : CodeGraph) (ord : List String) (b : Bridge)
    (hb : b ∈ mqttBridges g ord) : b.bridge_type = "mqtt" := by
  simp only [mqttBridges, List.mem_filterMap] at hb
  obtain ⟨t, _, hf⟩ := hb
  unfold mqttBridgeFor at hf
  split at hf
  · injection hf with h; rw [← h]
  · exact absurd hf (by simp)

theorem httpBridges_type (g : CodeGraph) (ord : List String) (b : Bridge)
    (hb : b ∈ httpBridges g ord) : b.bridge_type = "http" := by
  simp only [httpBridges, List.mem_filterMap] at hb
  obtain ⟨t, _, hf⟩ := hb
  unfold httpBridgeFor at hf
  split at hf
  · injection hf with h; rw [← h]
  · split at hf
    · injection hf with h; rw [← h]
    · exact absurd hf (by simp)

theorem wsBridges_type (g : CodeGraph) (ord : List String) (b : Bridge)
    (hb : b ∈ wsBridges g ord) : b.bridge_type = "websocket" := by
  simp only [wsBridges, List.mem_filterMap] at hb
  obtain ⟨t, _, hf⟩ := hb
  unfold wsBridgeFor at hf
  split at hf
  · injection hf with h; rw [← h]
  · exact absurd hf (by simp)

theorem serialBridges_type (g : CodeGraph) (b : Bridge)
    (hb : b ∈ serialBridges g) : b.bridge_type = "serial" := by
  unfold serialBridges at hb
  split at hb
  · rw [List.mem_singleton] at hb
    rw [hb]
  · exact absurd hb (by simp)

theorem envBridges_type (g : CodeGraph) (ord : List String) (b : Bridge)
    (hb : b ∈ envBridges g ord) : b.bridge_type = "env" := by
  simp only [envBridges, List.mem_filterMap] at hb
  obtain ⟨t, _, hf⟩ := hb
  unfold envBridgeFor at hf
  split at hf
  · injection hf with h; rw [← h]
  · split at hf
    · injection hf with h; rw [← h]
    · exact absurd hf (by simp)

/-- C5: every `UNMATCHED:`-keyed http bridge has empty producers and
non-empty consumers (a matched bridge's key is a lowercased normalized
path, which can never start with the uppercase prefix); under the
extractor guarantee that env edge targets are `env:` followed by a
colon-free `\w+` name, the same holds for `UNDEFINED:`-keyed env
bridges, and an `UNDEFINED:<name>` env bridge is emitted for exactly the
variables with at least one user and no definer; finally, in the graph
`detect_bridges` returns from an extraction-phase graph (whose bridge
list is empty), the http- and env-typed bridges are exactly the ones the
respective stages produced. -/
theorem claim_C5_broken_bridge_shape :
    (∀ (g : CodeGraph) (ord : List String) (b : Bridge),
      b ∈ httpBridges g ord → pyStartsWith b.key "UNMATCHED:" = true →
      b.producers = [] ∧ b.consumers ≠ []) ∧
    (∀ (g : CodeGraph) (ord : List String) (b : Bridge),
      envTargetsWf g = true → b ∈ envBridges g ord →
      pyStartsWith b.key "UNDEFINED:" = true →
      b.producers = [] ∧ b.consumers ≠ []) ∧
    (∀ (g : CodeGraph) (ord : List String) (v : String),
      envTargetsWf g = true → List.Perm ord (envKeys g) →
      ((∃ b ∈ envBridges g ord, b.key = "UNDEFINED:" ++ v) ↔
        (env_users g v ≠ [] ∧ env_definers g v = []))) ∧
    (∀ (g : CodeGraph) (mo ho wo eo : List String) (b : Bridge),
      g.bridges = [] → b ∈ (detect_bridges g mo ho wo eo).bridges →
      (b.bridge_type = "http" → b ∈ httpBridges g ho) ∧
      (b.bridge_type = "env" → b ∈ envBridges g eo)) := by
  refine ⟨?part1, ?part2, ?part3, ?part4⟩
  case part1 =>
    intro g ord b hb hkey
    simp only [httpBridges, List.mem_filterMap] at hb
    obtain ⟨p, _, hf⟩ := hb
    unfold httpBridgeFor at hf
    split at hf
    · rename_i hcond
      injection hf with h
      rw [← h] at hkey
      have hk : pyStartsWith p "UNMATCHED:" = true := hkey
      obtain ⟨x, hx⟩ := List.exists_mem_of_ne_nil _ hcond.1
      simp only [http_definers, List.mem_filterMap] at hx
      obtain ⟨e, _, hfe⟩ := hx
      split at hfe
      · split at hfe
        · rename_i t2 _
          split at hfe
          · rename_i hcond2
            rw [← hcond2.2] at hk
            rw [pyStartsWith_normalize_unmatched] at hk
            exact absurd hk (by simp)
          · exact absurd hfe (by simp)
        · exact absurd hfe (by simp)
      · exact absurd hfe (by simp)
    · split at hf
      · rename_i hcond2
        injection hf with h
        rw [← h]
        exact ⟨rfl, hcond2.1⟩
      · exact absurd hf (by simp)
  case part2 =>
    intro g ord b hwf hb hkey
    simp only [envBridges, List.mem_filterMap] at hb
    obtain ⟨t, _, hf⟩ := hb
    unfold envBridgeFor at hf
    split at hf
    · rename_i hcond
      injection hf with h
      rw [← h]
      exact ⟨rfl, hcond.1⟩
    · split at hf
      · rename_i hcond
        injection hf with h
        rw [← h] at hkey
        have hk : pyStartsWith t "UNDEFINED:" = true := hkey
        obtain ⟨x, hx⟩ := List.exists_mem_of_ne_nil _ hcond.1
        simp only [env_definers, List.mem_filterMap] at hx
        obtain ⟨e, he, hfe⟩ := hx
        split at hfe
        · rename_i hcond2
          have hspec := envTargetsWf_spec g hwf e he (Or.inr hcond2.1)
          have hvar := envVarOf_of_wf e hspec.1 hspec.2
          have ht2 : t = String.mk (e.target.data.drop 4) := by
            rw [← hcond2.2, hvar.1]
          have hcolon : ':' ∈ t.data := by
            have hsub := (List.isPrefixOf_iff_prefix.mp hk).subset
              (show ':' ∈ "UNDEFINED:".data by decide)
            exact hsub
          rw [ht2] at hcolon
          exact absurd hcolon hvar.2
        · exact absurd hfe (by simp)
      · exact absurd hf (by simp)
  case part3 =>
    intro g ord v hwf hperm
    constructor
    · rintro ⟨b, hb, hkey⟩
      simp only [envBridges, List.mem_filterMap] at hb
      obtain ⟨t, _, hf⟩ := hb
      unfold envBridgeFor at hf
      split at hf
      · rename_i hcond
        injection hf with h
        rw [← h] at hkey
        have hk : ("UNDEFINED:" ++ t : String) = "UNDEFINED:" ++ v := hkey
        have htv : t = v := string_append_left_cancel hk
        rw [← htv]
        exact hcond
      · split at hf
        · rename_i hcond
          injection hf with h
          rw [← h] at hkey
          have hk : t = "UNDEFINED:" ++ v := hkey
          obtain ⟨x, hx⟩ := List.exists_mem_of_ne_nil _ hcond.1
          simp only [env_definers, List.mem_filterMap] at hx
          obtain ⟨e, he, hfe⟩ := hx
          split at hfe
          · rename_i hcond2
            have hspec := envTargetsWf_spec g hwf e he (Or.inr hcond2.1)
            have hvar := envVarOf_of_wf e hspec.1 hspec.2
            have ht2 : t = String.mk (e.target.data.drop 4) := by
              rw [← hcond2.2, hvar.1]
            have hcolon : ':' ∈ t.data := by
              rw [hk]
              have : ("UNDEFINED:" ++ v : String).data =
                  "UNDEFINED:".data ++ v.data := String.data_append _ _
              rw [this]
              exact List.mem_append_left _ (by decide)
            rw [ht2] at hcolon
            exact absurd hcolon hvar.2
          · exact absurd hfe (by simp)
        · exact absurd hf (by simp)
    · rintro ⟨huses, hdefs⟩
      have hvmem : v ∈ envKeys g := by
        unfold envKeys
        rw [mem_dedupFirst, List.mem_append]
        right
        obtain ⟨x, hx⟩ := List.exists_mem_of_ne_nil _ huses
        simp only [env_users, List.mem_filterMap] at hx
        obtain ⟨e, he, hfe⟩ := hx
        split at hfe
        · rename_i hcond2
          simp only [List.mem_filterMap]
          exact ⟨e, he, by rw [if_pos hcond2.1, hcond2.2]⟩
        · exact absurd hfe (by simp)
      refine ⟨{ bridge_type := "env", key := "UNDEFINED:" ++ v, producers := [],
                consumers := env_users g v }, ?_, rfl⟩
      simp only [envBridges, List.mem_filterMap]
      refine ⟨v, hperm.mem_iff.mpr hvmem, ?_⟩
      unfold envBridgeFor
      rw [if_pos ⟨huses, hdefs⟩]
  case part4 =>
    intro g mo ho wo eo b hempty hb
    have hb2 : b ∈ g.bridges ++ mqttBridges g mo ++ httpBridges g ho ++
        wsBridges g wo ++ serialBridges g ++ envBridges g eo := hb
    rw [hempty] at hb2
    simp only [List.nil_append, List.mem_append] at hb2
    constructor
    · intro htype
      rcases hb2 with ((((h | h) | h) | h) | h)
      · rw [mqttBridges_type g mo b h] at htype
        exact absurd htype (by decide)
      · exact h
      · rw [wsBridges_type g wo b h] at htype
        exact absurd htype (by decide)
      · rw [serialBridges_type g b h] at htype
        exact absurd htype (by decide)
      · rw [envBridges_type g eo b h] at htype
        exact absurd htype (by decide)
    · intro htype
      rcases hb2 with ((((h | h) | h) | h) | h)
      · rw [mqttBridges_type g mo b h] at htype
        exact absurd htype (by decide)
      · rw [httpBridges_type g ho b h] at htype
        exact absurd htype (by decide)
      · rw [wsBridges_type g wo b h] at htype
        exact absurd htype (by decide)
      · rw [serialBridges_type g b h] at htype
        exact absurd htype (by decide)
      · exact h

/-- Witness for C5 at the undefined-variable scenario. -/
theorem claim_C5_witness :
    ∃ b ∈ envBridges envScenario ["DATABASE_URL"], b.key = "UNDEFINED:DATABASE_URL" := by
  exact (claim_C5_broken_bridge_shape.2.2.1 envScenario ["DATABASE_URL"] "DATABASE_URL"
    (by decide) (by decide)).mpr (by decide)

-- ════════════════════════════════════════════════════════════════════
-- Claim C9: every edge's source id is present in the node map
-- ════════════════════════════════════════════════════════════════════

theorem edges_add_node (g : CodeGraph) (n : Node) : (g.add_node n).edges = g.edges := by
  unfold CodeGraph.add_node
  split <;> rfl

theorem isSome_get_node_add_node (g : CodeGraph) (n : Node) (i : String)
    (h : ((g.get_node i)).isSome) : (((g.add_node n).get_node i)).isSome := by
  rcases Option.isSome_iff_exists.mp h with ⟨v, hv⟩
  rw [get_node_add_node, hv]
  rfl

theorem isSome_get_node_add_node_self (g : CodeGraph) (n : Node) :
    (((g.add_node n).get_node n.id)).isSome := by
  rw [get_node_add_node]
  cases hq : g.get_node n.id with
  | none => simp [Option.or]
  | some v => simp [Option.or]

theorem covered_add_node {g : CodeGraph} (n : Node) (h : edgeSourcesCovered g) :
    edgeSourcesCovered (g.add_node n) := by
  intro e he
  rw [edges_add_node] at he
  exact isSome_get_node_add_node g n e.source (h e he)

theorem covered_add_edge {g : CodeGraph} {e : Edge} (h : edgeSourcesCovered g)
    (hs : ((g.get_node e.source)).isSome) : edgeSourcesCovered (g.add_edge e) := by
  intro e2 he2
  have hg : (g.add_edge e).get_node e2.source = g.get_node e2.source := rfl
  rw [hg]
  have hm : e2 ∈ g.edges ++ [e] := he2
  rcases List.mem_append.mp hm with h1 | h1
  · exact h e2 h1
  · rw [List.mem_singleton] at h1
    subst h1
    exact hs

theorem coveredWith_add_edge {fid : String} {g : CodeGraph} {e : Edge}
    (h : coveredWith fid g) (he : e.source = fid) : coveredWith fid (g.add_edge e) := by
  refine ⟨covered_add_edge h.1 ?_, h.2⟩
  rw [he]
  exact h.2

theorem coveredWith_add_node {fid : String} {g : CodeGraph} (n : Node)
    (h : coveredWith fid g) : coveredWith fid (g.add_node n) :=
  ⟨covered_add_node n h.1, isSome_get_node_add_node g n fid h.2⟩

theorem coveredWith_add_node_edge {fid : String} {g : CodeGraph} {n : Node} {e : Edge}
    (h : coveredWith fid g) (he : e.source = fid ∨ e.source = n.id) :
    coveredWith fid ((g.add_node n).add_edge e) := by
  have h2 := coveredWith_add_node n h
  rcases he with h3 | h3
  · exact coveredWith_add_edge h2 h3
  · refine ⟨covered_add_edge h2.1 ?_, h2.2⟩
    rw [h3]
    exact isSome_get_node_add_node_self g n

theorem processJsLine_covered (relp lang fid : String) (ln : Nat) (m : JsLine)
    (g : CodeGraph) (h : coveredWith fid g) :
    coveredWith fid (processJsLine relp lang fid ln m g) := by
  simp only [processJsLine]
  refine foldl_preserves (coveredWith fid) _ ?s9 _ _
    (foldl_preserves (coveredWith fid) _ ?s8 _ _
      (foldl_preserves (coveredWith fid) _ ?s7 _ _
        (foldl_preserves (coveredWith fid) _ ?s6 _ _
          (foldl_preserves (coveredWith fid) _ ?s5 _ _
            (foldl_preserves (coveredWith fid) _ ?s4 _ _
              (foldl_preserves (coveredWith fid) _ ?s3 _ _
                (foldl_preserves (coveredWith fid) _ ?s2 _ _
                  (foldl_preserves (coveredWith fid) _ ?s1 _ _ h))))))))
  case s1 => intro a b ha; exact coveredWith_add_edge ha rfl
  case s2 =>
    intro a b ha
    by_cases hb : b = ""
    · rw [if_pos hb]; exact ha
    · rw [if_neg hb]; exact coveredWith_add_node_edge ha (Or.inl rfl)
  case s3 => intro a b ha; exact coveredWith_add_node_edge ha (Or.inl rfl)
  case s4 => intro a b ha; exact coveredWith_add_edge ha rfl
  case s5 => intro a b ha; exact coveredWith_add_node_edge ha (Or.inl rfl)
  case s6 => intro a b ha; exact coveredWith_add_node_edge ha (Or.inr rfl)
  case s7 => intro a b ha; exact coveredWith_add_node_edge ha (Or.inl rfl)
  case s8 => intro a b ha; exact coveredWith_add_node_edge ha (Or.inr rfl)
  case s9 => intro a b ha; exact coveredWith_add_node_edge ha (Or.inl rfl)

theorem processPyLine_covered (relp fid : String) (ln : Nat) (m : PyLine)
    (g : CodeGraph) (h : coveredWith fid g) :
    coveredWith fid (processPyLine relp fid ln m g) := by
  simp only [processPyLine]
  refine foldl_preserves (coveredWith fid) _ ?s11 _ _
    (foldl_preserves (coveredWith fid) _ ?s10 _ _
      (foldl_preserves (coveredWith fid) _ ?s9 _ _ ?serialW))
  case s11 => intro a b ha; exact coveredWith_add_node_edge ha (Or.inl rfl)
  case s10 => intro a b ha; exact coveredWith_add_node_edge ha (Or.inl rfl)
  case s9 => intro a b ha; exact coveredWith_add_edge ha rfl
  case serialW =>
    have hbase : coveredWith fid
        (m.mqtt_callbacks.foldl (fun g t =>
          (g.add_node { id := "mqtt:" ++ t, file := relp, name := "mqtt:" ++ t,
                        node_type := "topic", language := "python" }).add_edge
            { source := "mqtt:" ++ t, target := fid, edge_type := "subscribes",
              file := relp, line := ln })
          (m.mqtt_subs.foldl (fun g t =>
            (g.add_node { id := "mqtt:" ++ t, file := relp, name := "mqtt:" ++ t,
                          node_type := "topic", language := "python" }).add_edge
              { source := "mqtt:" ++ t, target := fid, edge_type := "subscribes",
                file := relp, line := ln })
            (m.mqtt_pubs.foldl (fun g t =>
              (g.add_node { id := "mqtt:" ++ t, file := relp, name := "mqtt:" ++ t,
                            node_type := "topic", language := "python", line := ln }).add_edge
                { source := fid, target := "mqtt:" ++ t, edge_type := "publishes",
                  file := relp, line := ln })
              (m.classes.foldl (fun g nm =>
                (g.add_node { id := "class:" ++ relp ++ ":" ++ nm, file := relp, name := nm,
                              node_type := "class", language := "python", line := ln }).add_edge
                  { source := fid, target := "class:" ++ relp ++ ":" ++ nm,
                    edge_type := "defines", file := relp, line := ln })
                (m.funcs.foldl (fun g nm =>
                  (g.add_node { id := "func:" ++ relp ++ ":" ++ nm, file := relp, name := nm,
                                node_type := "function", language := "python", line := ln }).add_edge
                    { source := fid, target := "func:" ++ relp ++ ":" ++ nm,
                      edge_type := "defines", file := relp, line := ln })
                  (m.imports.foldl (fun g module =>
                    g.add_edge { source := fid,
                                 target := "file:" ++ resolve_python_import relp module,
                                 edge_type := "imports", file := relp, line := ln,
                                 metadata := [("module", module)] }) g)))))) := by
      refine foldl_preserves (coveredWith fid) _ ?t6 _ _
        (foldl_preserves (coveredWith fid) _ ?t5 _ _
          (foldl_preserves (coveredWith fid) _ ?t4 _ _
            (foldl_preserves (coveredWith fid) _ ?t3 _ _
              (foldl_preserves (coveredWith fid) _ ?t2 _ _
                (foldl_preserves (coveredWith fid) _ ?t1 _ _ h)))))
      case t1 => intro a b ha; exact coveredWith_add_edge ha rfl
      case t2 => intro a b ha; exact coveredWith_add_node_edge ha (Or.inl rfl)
      case t3 => intro a b ha; exact coveredWith_add_node_edge ha (Or.inl rfl)
      case t4 => intro a b ha; exact coveredWith_add_node_edge ha (Or.inl rfl)
      case t5 => intro a b ha; exact coveredWith_add_node_edge ha (Or.inr rfl)
      case t6 => intro a b ha; exact coveredWith_add_node_edge ha (Or.inr rfl)
    by_cases hr : m.serial_reads
    · by_cases hw : m.serial_writes
      · simp only [hr, hw, if_pos]
        exact coveredWith_add_node_edge
          (coveredWith_add_node_edge hbase (Or.inr rfl)) (Or.inl rfl)
      · simp only [hr, hw, if_pos, Bool.false_eq_true, if_neg, not_false_iff]
        exact coveredWith_add_node_edge hbase (Or.inr rfl)
    · by_cases hw : m.serial_writes
      · simp only [hr, hw, Bool.false_eq_true, if_neg, not_false_iff, if_pos]
        exact coveredWith_add_node_edge hbase (Or.inl rfl)
      · simp only [hr, hw, Bool.false_eq_true, if_neg, not_false_iff]
        exact hbase

theorem processCppLine_covered (relp lang fid : String) (ln : Nat) (m : CppLine)
    (g : CodeGraph) (h : coveredWith fid g) :
    coveredWith fid (processCppLine relp lang fid ln m g) := by
  simp only [processCppLine]
  have hinc : coveredWith fid (match m.include_match with
    | none => g
    | some (hdr, isLocal) =>
      if isLocal then
        g.add_edge { source := fid, target := "file:" ++ resolve_cpp_include relp hdr,
                     edge_type := "includes", file := relp, line := ln }
      else
        (g.add_node { id := "lib:" ++ hdr, file := "", name := hdr,
                      node_type := "file", language := "cpp" }).add_edge
          { source := fid, target := "lib:" ++ hdr, edge_type := "includes",
            file := relp, line := ln }) := by
    cases m.include_match with
    | none => exact h
    | some pr =>
      rcases pr with ⟨hdr, isLocal⟩
      cases isLocal with
      | true => exact coveredWith_add_edge h rfl
      | false => exact coveredWith_add_node_edge h (Or.inl rfl)
  have hbase : coveredWith fid
      (m.mqtt_subs.foldl (fun g t =>
        (g.add_node { id := "mqtt:" ++ t, file := relp, name := "mqtt:" ++ t,
                      node_type := "topic", language := lang }).add_edge
          { source := "mqtt:" ++ t, target := fid, edge_type := "subscribes",
            file := relp, line := ln })
        (m.mqtt_pubs.foldl (fun g t =>
          (g.add_node { id := "mqtt:" ++ t, file := relp, name := "mqtt:" ++ t,
                        node_type := "topic", language := lang, line := ln }).add_edge
            { source := fid, target := "mqtt:" ++ t, edge_type := "publishes",
              file := relp, line := ln })
          (m.funcs.foldl (fun g nm =>
            if nm = "if" ∨ nm = "while" ∨ nm = "for" ∨ nm = "switch" ∨ nm = "return" then g
            else
              (g.add_node { id := "func:" ++ relp ++ ":" ++ nm, file := relp, name := nm,
                            node_type := "function", language := lang, line := ln }).add_edge
                { source := fid, target := "func:" ++ relp ++ ":" ++ nm,
                  edge_type := "defines", file := relp, line := ln })
            (match m.include_match with
              | none => g
              | some (hdr, isLocal) =>
                if isLocal then
                  g.add_edge { source := fid,
                               target := "file:" ++ resolve_cpp_include relp hdr,
                               edge_type := "includes", file := relp, line := ln }
                else
                  (g.add_node { id := "lib:" ++ hdr, file := "", name := hdr,
                                node_type := "file", language := "cpp" }).add_edge
                    { source := fid, target := "lib:" ++ hdr, edge_type := "includes",
                      file := relp, line := ln })))) := by
    refine foldl_preserves (coveredWith fid) _ ?w3 _ _
      (foldl_preserves (coveredWith fid) _ ?w2 _ _
        (foldl_preserves (coveredWith fid) _ ?w1 _ _ hinc))
    case w1 =>
      intro a b ha
      by_cases hb : b = "if" ∨ b = "while" ∨ b = "for" ∨ b = "switch" ∨ b = "return"
      · rw [if_pos hb]; exact ha
      · rw [if_neg hb]; exact coveredWith_add_node_edge ha (Or.inl rfl)
    case w2 => intro a b ha; exact coveredWith_add_node_edge ha (Or.inl rfl)
    case w3 => intro a b ha; exact coveredWith_add_node_edge ha (Or.inr rfl)
  refine foldl_preserves (coveredWith fid) _ ?u7 _ _ ?ubase
  case u7 => intro a b ha; exact coveredWith_add_edge ha rfl
  case ubase =>
    by_cases hw : m.serial_write
    · by_cases hr : m.serial_read
      · simp only [hw, hr, if_pos]
        exact coveredWith_add_node_edge
          (coveredWith_add_node_edge hbase (Or.inl rfl)) (Or.inr rfl)
      · simp only [hw, hr, if_pos, Bool.false_eq_true, if_neg, not_false_iff]
        exact coveredWith_add_node_edge hbase (Or.inl rfl)
    · by_cases hr : m.serial_read
      · simp only [hw, hr, Bool.false_eq_true, if_neg, not_false_iff, if_pos]
        exact coveredWith_add_node_edge hbase (Or.inr rfl)
      · simp only [hw, hr, Bool.false_eq_true, if_neg, not_false_iff]
        exact hbase

theorem parse_javascript_covered (f : SourceFile) (g : CodeGraph)
    (h : edgeSourcesCovered g) : edgeSourcesCovered (parse_javascript f g) := by
  simp only [parse_javascript]
  refine (foldl_preserves (coveredWith ("file:" ++ f.relp)) _ ?step _ _
    ⟨covered_add_node _ h, isSome_get_node_add_node_self g _⟩).1
  case step => intro a b ha; exact processJsLine_covered _ _ _ _ _ _ ha

theorem parse_python_covered (f : SourceFile) (g : CodeGraph)
    (h : edgeSourcesCovered g) : edgeSourcesCovered (parse_python f g) := by
  simp only [parse_python]
  refine (foldl_preserves (coveredWith ("file:" ++ f.relp)) _ ?step _ _
    ⟨covered_add_node _ h, isSome_get_node_add_node_self g _⟩).1
  case step => intro a b ha; exact processPyLine_covered _ _ _ _ _ ha

theorem parse_cpp_arduino_covered (f : SourceFile) (g : CodeGraph)
    (h : edgeSourcesCovered g) : edgeSourcesCovered (parse_cpp_arduino f g) := by
  simp only [parse_cpp_arduino]
  refine (foldl_preserves (coveredWith ("file:" ++ f.relp)) _ ?step _ _
    ⟨covered_add_node _ h, isSome_get_node_add_node_self g _⟩).1
  case step => intro a b ha; exact processCppLine_covered _ _ _ _ _ _ ha

theorem parse_env_file_covered (f : SourceFile) (g : CodeGraph)
    (h : edgeSourcesCovered g) : edgeSourcesCovered (parse_env_file f g) := by
  simp only [parse_env_file]
  refine (foldl_preserves (coveredWith ("file:" ++ f.relp)) _ ?step _ _
    ⟨covered_add_node _ h, isSome_get_node_add_node_self g _⟩).1
  case step => intro a b ha; exact coveredWith_add_node_edge ha (Or.inl rfl)

theorem parse_config_files_covered (f : SourceFile) (g : CodeGraph)
    (h : edgeSourcesCovered g) : edgeSourcesCovered (parse_config_files f g) := by
  simp only [parse_config_files]
  have h0 : coveredWith ("file:" ++ f.relp)
      (g.add_node { id := "file:" ++ f.relp, file := f.relp, name := f.name,
                    node_type := "file", language := "config" }) :=
    ⟨covered_add_node _ h, isSome_get_node_add_node_self g _⟩
  cases f.pkg with
  | none => exact h0.1
  | some p =>
    refine (foldl_preserves (coveredWith ("file:" ++ f.relp)) _ ?s3 _ _
      (foldl_preserves (coveredWith ("file:" ++ f.relp)) _ ?s2 _ _
        (foldl_preserves (coveredWith ("file:" ++ f.relp)) _ ?s1 _ _ h0))).1
    case s1 => intro a b ha; exact coveredWith_add_node_edge ha (Or.inl rfl)
    case s2 => intro a b ha; exact coveredWith_add_node_edge ha (Or.inl rfl)
    case s3 => intro a b ha; exact coveredWith_add_node _ ha

theorem processFile_covered (g : CodeGraph) (f : SourceFile)
    (h : edgeSourcesCovered g) : edgeSourcesCovered (processFile g f) := by
  simp only [processFile]
  split
  · exact h
  · split
    · exact parse_env_file_covered f g h
    · split
      · exact parse_javascript_covered f g h
      · split
        · exact parse_python_covered f g h
        · split
          · exact parse_cpp_arduino_covered f g h
          · split
            · exact parse_config_files_covered f g h
            · exact h

theorem build_graph_core_covered (fs : List SourceFile) :
    edgeSourcesCovered (build_graph_core fs) := by
  unfold build_graph_core
  refine foldl_preserves edgeSourcesCovered processFile
    (fun a b ha => processFile_covered a b ha) fs emptyCG ?_
  intro e he
  exact absurd he (List.not_mem_nil e)

/-- C9: in the graph `build_graph` returns — extraction over any input
files in any order, followed by `detect_bridges` under any key
enumeration orders — every edge's source id is present in the node map
(edge targets are allowed to dangle; bridge detection adds only
bridges, leaving nodes and edges untouched). -/
theorem claim_C9_edge_sources_present (fs : List SourceFile) (mo ho wo eo : List String)
    (e : Edge) (he : e ∈ (build_graph fs mo ho wo eo).edges) :
    (((build_graph fs mo ho wo eo).get_node e.source)).isSome := by
  have hcov := build_graph_core_covered fs
  have he2 : e ∈ (build_graph_core fs).edges := he
  exact hcov e he2

/-- Witness for C9 at the single-file project. -/
theorem claim_C9_witness :
    (((build_graph [c9File] [] [] [] []).get_node c9Edge.source)).isSome := by
  exact claim_C9_edge_sources_present [c9File] [] [] [] [] c9Edge (by decide)
